import Mathlib

/-!
# Todo service: in-memory store and HTTP dispatcher

A shallow embedding of `sample/internal/store/memory.go` and
`sample/internal/handler/todo.go`.

Modelling conventions.

* Go's `int` is the 64-bit two's-complement integer (`strconv.IntSize = 64`):
  values are `Int`s and every arithmetic result is reduced by `wrapInt`.
* The store keeps `*model.Todo` pointers. The objects live in an explicit heap
  (`MemoryStore.heap`), a pointer is an index into it, and `Create` allocates a
  fresh cell. `Update` writes through the pointer, so every holder of the
  pointer observes the write. Only `Create` stores pointers, each to the cell it
  has just allocated, so the map of a reachable store holds no `nil` or dangling
  pointer (`IDInvariant_run`); a write through a pointer outside the heap, which
  the code cannot perform, changes nothing.
* `time.Now()` is an explicit argument `now`; a `time.Time` is an instant on a
  linear clock, an `Int`.
* A Go map has no iteration order: `GetAll` receives the order in which the
  runtime enumerates the keys as an argument.
* `sync.RWMutex` is not modelled: every operation is one atomic step.
* A response is the state the handler leaves in the `http.ResponseWriter`: the
  headers it set, the status it wrote and the body. What the server adds while
  sending (`Date`, `Content-Length`) is outside; it adds a `Content-Type` only
  by sniffing a body written without one, which no path of the handler does.
* `encoding/json` is outside the embedding: the decoded request body is supplied
  by the environment (`Env`), and a response body is the value handed to the
  encoder (`Payload`).
* Go strings are byte strings; here they are `String`s (sequences of
  characters). The two views agree on every test the code performs (equality
  with `""`, an ASCII prefix, decimal digits and signs).
-/

namespace TodoApp

/-! ## Machine integers -/

/-- Width of Go's `int` in bits. -/
def intSize : Nat := 64

/-- Smallest value of `int`. -/
def minInt : Int := -(2 ^ (intSize - 1))

/-- Largest value of `int`. -/
def maxInt : Int := 2 ^ (intSize - 1) - 1

/-- Two's-complement reduction of an integer to the range of `int`. -/
def wrapInt (z : Int) : Int :=
  (z + 2 ^ (intSize - 1)) % 2 ^ intSize - 2 ^ (intSize - 1)

/-! ## Data model -/

/-- An instant read from `time.Now()`. -/
abbrev Time := Int

/-- The struct `model.Todo`, with the fields `MemoryStore.Create` initialises. -/
structure Todo where
  ID : Int
  Title : String
  Completed : Bool
  CreatedAt : Time
  UpdatedAt : Time
deriving DecidableEq, Repr

/-- A `*model.Todo`: the index of a heap cell. -/
abbrev Ptr := Nat

/-- Values of Go's `error` interface that are not `nil`. -/
inductive GoError where
  | ErrNotFound
  | other (msg : String)
deriving DecidableEq, Repr

/-- A Go slice value; `none` is the `nil` slice. -/
abbrev Slice (α : Type) := Option (List α)

/-- The expression `make([]T, 0, n)`: an empty slice that is not `nil`. -/
def Slice.make {α : Type} (_cap : Nat) : Slice α := some []

/-- The expression `append(s, x)`. -/
def Slice.append {α : Type} (s : Slice α) (x : α) : Slice α :=
  some (s.getD [] ++ [x])

/-- The struct `MemoryStore` (the mutex apart) together with the heap that
holds the `model.Todo` objects its pointers refer to. -/
structure MemoryStore where
  heap : List Todo
  todos : AList (fun _ : Int => Ptr)
  nextID : Int
deriving DecidableEq

/-- Dereference: the `model.Todo` a pointer refers to. -/
def MemoryStore.deref (s : MemoryStore) (p : Ptr) : Option Todo := s.heap[p]?

/-! ## Store operations -/

/-- The function `NewMemoryStore`. -/
def NewMemoryStore : MemoryStore :=
  { heap := [], todos := ∅, nextID := 1 }

/-- The method `MemoryStore.GetAll`; `order` is the order in which `range`
enumerates the keys of the map. -/
def GetAll (s : MemoryStore) (order : List Int) : MemoryStore × Slice Ptr :=
  (s, order.foldl
        (fun todos k =>
          match s.todos.lookup k with
          | some todo => Slice.append todos todo
          | none => todos)
        (Slice.make s.todos.keys.length))

/-- The method `MemoryStore.GetByID`. -/
def GetByID (s : MemoryStore) (id : Int) : MemoryStore × Except GoError Ptr :=
  match s.todos.lookup id with
  | none => (s, .error GoError.ErrNotFound)
  | some todo => (s, .ok todo)

/-- The method `MemoryStore.Create`; the new object is allocated at the end of
the heap. -/
def Create (s : MemoryStore) (title : String) (now : Time) : MemoryStore × Ptr :=
  let todo : Ptr := s.heap.length
  ({ heap := s.heap ++ [{ ID := s.nextID, Title := title, Completed := false,
                          CreatedAt := now, UpdatedAt := now }],
     todos := s.todos.insert s.nextID todo,
     nextID := wrapInt (s.nextID + 1) },
   todo)

/-- The method `MemoryStore.Update`; the three assignments go through the
pointer found in the map. -/
def Update (s : MemoryStore) (id : Int) (title : String) (completed : Bool) (now : Time) :
    MemoryStore × Except GoError Ptr :=
  match s.todos.lookup id with
  | none => (s, .error GoError.ErrNotFound)
  | some todo =>
    let assign : Todo → Todo :=
      fun t => { t with Title := title, Completed := completed, UpdatedAt := now }
    ({ s with heap := s.heap.modify assign todo }, .ok todo)

/-- The method `MemoryStore.Delete`. -/
def Delete (s : MemoryStore) (id : Int) : MemoryStore × Option GoError :=
  match s.todos.lookup id with
  | none => (s, some GoError.ErrNotFound)
  | some _ => ({ s with todos := s.todos.erase id }, none)

/-! ## Sequences of store operations -/

/-- One call of a store method with its arguments (and, for the two methods
that read the clock, the instant they read). -/
inductive Op where
  | GetAll (order : List Int)
  | GetByID (id : Int)
  | Create (title : String) (now : Time)
  | Update (id : Int) (title : String) (completed : Bool) (now : Time)
  | Delete (id : Int)
deriving DecidableEq, Repr

/-- The store after one call. -/
def step (s : MemoryStore) : Op → MemoryStore
  | .GetAll order => (GetAll s order).1
  | .GetByID id => (GetByID s id).1
  | .Create title now => (Create s title now).1
  | .Update id title completed now => (Update s id title completed now).1
  | .Delete id => (Delete s id).1

/-- The store after a sequence of calls, made in order. -/
def run (s : MemoryStore) (ops : List Op) : MemoryStore := ops.foldl step s

/-- The `ID` field of the item each `Create` call of the sequence returns, read
through the returned pointer when the call returns, in call order. -/
def createdIDs : MemoryStore → List Op → List (Option Int)
  | _, [] => []
  | s, .Create title now :: ops =>
    let r := Create s title now
    (r.1.deref r.2).map (·.ID) :: createdIDs r.1 ops
  | s, op :: ops => createdIDs (step s op) ops

/-- Number of `Create` calls in a sequence. -/
def numCreates (ops : List Op) : Nat :=
  (ops.filter (fun op => match op with | .Create _ _ => true | _ => false)).length

/-- The instants the calls of a sequence read from the clock, in call order:
`Create` always reads it, `Update` reads it only after it has found the id. -/
def clockReadings : MemoryStore → List Op → List Time
  | _, [] => []
  | s, .Create title now :: ops => now :: clockReadings (Create s title now).1 ops
  | s, .Update id title completed now :: ops =>
    match s.todos.lookup id with
    | some _ => now :: clockReadings (Update s id title completed now).1 ops
    | none => clockReadings (Update s id title completed now).1 ops
  | s, op :: ops => clockReadings (step s op) ops

/-- The numbering invariant of the store: the counter is positive, every key
lies in `[1, nextID)`, and the item stored under key `k` exists and has
`ID = k`. -/
def IDInvariant (s : MemoryStore) : Prop :=
  1 ≤ s.nextID ∧
  ∀ (k : Int) (p : Ptr), s.todos.lookup k = some p →
    1 ≤ k ∧ k < s.nextID ∧ ∃ x : Todo, s.deref p = some x ∧ x.ID = k

/-- The timestamp invariant of the store, relative to the instants the clock
will still return: every stored item exists, has `CreatedAt ≤ UpdatedAt`, and
was created no later than any of those instants. -/
def TimesOrdered (s : MemoryStore) (future : List Time) : Prop :=
  ∀ (k : Int) (p : Ptr), s.todos.lookup k = some p →
    ∃ x : Todo, s.deref p = some x ∧ x.CreatedAt ≤ x.UpdatedAt ∧
      ∀ r ∈ future, x.CreatedAt ≤ r

/-! ## Library functions used by the handler -/

/-- The function `strings.TrimPrefix`. -/
def TrimPrefix (s pre : String) : String :=
  if pre.data.isPrefixOf s.data then ⟨s.data.drop pre.data.length⟩ else s

/-- The digit loop of `strconv.ParseUint` in base 10: the value of a string of
decimal digits, `none` at the first other character (an underscore included). -/
def parseDigits : List Char → Nat → Option Nat
  | [], n => some n
  | c :: cs, n =>
    if '0' ≤ c ∧ c ≤ '9' then parseDigits cs (n * 10 + (c.toNat - '0'.toNat)) else none

/-- The function `strconv.Atoi`, that is `strconv.ParseInt(s, 10, 0)`: an
optional sign `+` or `-`, then at least one decimal digit and nothing else
(a syntax error otherwise), with a value in the range of `int` (a range error
otherwise). -/
def Atoi (s : String) : Except GoError Int :=
  match s.data with
  | [] => .error (GoError.other "invalid syntax")
  | c :: cs =>
    let neg : Bool := c == '-'
    let digits : List Char := if c == '+' || c == '-' then cs else c :: cs
    if digits.isEmpty then .error (GoError.other "invalid syntax")
    else
      match parseDigits digits 0 with
      | none => .error (GoError.other "invalid syntax")
      | some un =>
        if !neg && 2 ^ (intSize - 1) ≤ un then .error (GoError.other "value out of range")
        else if neg && 2 ^ (intSize - 1) < un then .error (GoError.other "value out of range")
        else .ok (if neg then -(un : Int) else (un : Int))

/-! ## The HTTP handler -/

/-- The parts of an `*http.Request` the handler reads: `r.Method`,
`r.URL.Path` and the bytes of `r.Body`. -/
structure Request where
  Method : String
  Path : String
  Body : String
deriving DecidableEq, Repr

/-- What one request takes from its environment: the instant `time.Now()`
returns, the order in which `range` enumerates the map, and the result of
`json.NewDecoder(r.Body).Decode(&req)` for the request struct of
`handleCreate` (`Title`) and of `handleUpdate` (`Title`, `Completed`), where
`none` is a decoding error. -/
structure Env where
  now : Time
  order : List Int
  decodeCreate : String → Option String
  decodeUpdate : String → Option (String × Bool)

/-- The value handed to `json.NewEncoder(w).Encode`, or written as text. A
`*model.Todo` is encoded as the object it points to at that moment. Encoding
is taken to succeed. -/
inductive Payload where
  | empty
  | text (s : String)
  | error (message : String)
  | todo (t : Option Todo)
  | todos (ts : Slice (Option Todo))
deriving DecidableEq, Repr

/-- The state of an `http.ResponseWriter`: the header map, the status code
written (0 while none is), and the body. -/
structure ResponseWriter where
  header : List (String × String)
  status : Nat
  body : Payload
deriving DecidableEq, Repr

/-- The response writer a handler receives. -/
def ResponseWriter.new : ResponseWriter := { header := [], status := 0, body := Payload.empty }

/-- The method `Header().Set`. -/
def ResponseWriter.Set (w : ResponseWriter) (key value : String) : ResponseWriter :=
  { w with header := (key, value) :: w.header.filter (fun kv => kv.1 ≠ key) }

/-- The method `Header().Get`. -/
def ResponseWriter.Get (w : ResponseWriter) (key : String) : Option String :=
  (w.header.find? (fun kv => kv.1 = key)).map (·.2)

/-- The method `WriteHeader`. -/
def ResponseWriter.WriteHeader (w : ResponseWriter) (status : Nat) : ResponseWriter :=
  { w with status := status }

/-- The outcome of serving one request: the store afterwards, the response,
and the store methods that were called, in order. -/
structure Served where
  store : MemoryStore
  w : ResponseWriter
  calls : List Op
deriving DecidableEq

/-- The function `parseID`. -/
def parseID (path : String) : Except GoError Int :=
  let idStr := TrimPrefix path "/"
  Atoi idStr

/-- The function `respondJSON`. -/
def respondJSON (w : ResponseWriter) (status : Nat) (data : Payload) : ResponseWriter :=
  { (w.Set "Content-Type" "application/json").WriteHeader status with body := data }

/-- The function `respondError`. -/
def respondError (w : ResponseWriter) (status : Nat) (message : String) : ResponseWriter :=
  respondJSON w status (Payload.error message)

/-- The function `http.NotFound`: a plain-text 404. -/
def NotFound (w : ResponseWriter) : ResponseWriter :=
  { ((w.Set "Content-Type" "text/plain; charset=utf-8").Set
        "X-Content-Type-Options" "nosniff").WriteHeader 404 with
    body := Payload.text "404 page not found\n" }

/-- The method `TodoHandler.handleGetAll`. -/
def handleGetAll (s : MemoryStore) (env : Env) (w : ResponseWriter) : Served :=
  let r := GetAll s env.order
  { store := r.1,
    w := respondJSON w 200 (Payload.todos (r.2.map (List.map r.1.deref))),
    calls := [Op.GetAll env.order] }

/-- The method `TodoHandler.handleGetByID`. -/
def handleGetByID (s : MemoryStore) (w : ResponseWriter) (path : String) : Served :=
  match parseID path with
  | .error _ => { store := s, w := respondError w 400 "Invalid ID", calls := [] }
  | .ok id =>
    match GetByID s id with
    | (s1, .error err) =>
      if err = GoError.ErrNotFound then
        { store := s1, w := respondError w 404 "Todo not found", calls := [Op.GetByID id] }
      else
        { store := s1, w := respondError w 500 "Internal server error",
          calls := [Op.GetByID id] }
    | (s1, .ok todo) =>
      { store := s1, w := respondJSON w 200 (Payload.todo (s1.deref todo)),
        calls := [Op.GetByID id] }

/-- The method `TodoHandler.handleCreate`. -/
def handleCreate (s : MemoryStore) (env : Env) (w : ResponseWriter) (r : Request) : Served :=
  match env.decodeCreate r.Body with
  | none => { store := s, w := respondError w 400 "Invalid request body", calls := [] }
  | some title =>
    if title = "" then
      { store := s, w := respondError w 400 "Title is required", calls := [] }
    else
      let c := Create s title env.now
      { store := c.1, w := respondJSON w 201 (Payload.todo (c.1.deref c.2)),
        calls := [Op.Create title env.now] }

/-- The method `TodoHandler.handleUpdate`. -/
def handleUpdate (s : MemoryStore) (env : Env) (w : ResponseWriter) (r : Request)
    (path : String) : Served :=
  match parseID path with
  | .error _ => { store := s, w := respondError w 400 "Invalid ID", calls := [] }
  | .ok id =>
    match env.decodeUpdate r.Body with
    | none => { store := s, w := respondError w 400 "Invalid request body", calls := [] }
    | some (title, completed) =>
      if title = "" then
        { store := s, w := respondError w 400 "Title is required", calls := [] }
      else
        match Update s id title completed env.now with
        | (s1, .error err) =>
          if err = GoError.ErrNotFound then
            { store := s1, w := respondError w 404 "Todo not found",
              calls := [Op.Update id title completed env.now] }
          else
            { store := s1, w := respondError w 500 "Internal server error",
              calls := [Op.Update id title completed env.now] }
        | (s1, .ok todo) =>
          { store := s1, w := respondJSON w 200 (Payload.todo (s1.deref todo)),
            calls := [Op.Update id title completed env.now] }

/-- The method `TodoHandler.handleDelete`. -/
def handleDelete (s : MemoryStore) (w : ResponseWriter) (path : String) : Served :=
  match parseID path with
  | .error _ => { store := s, w := respondError w 400 "Invalid ID", calls := [] }
  | .ok id =>
    match Delete s id with
    | (s1, some err) =>
      if err = GoError.ErrNotFound then
        { store := s1, w := respondError w 404 "Todo not found", calls := [Op.Delete id] }
      else
        { store := s1, w := respondError w 500 "Internal server error",
          calls := [Op.Delete id] }
    | (s1, none) => { store := s1, w := w.WriteHeader 204, calls := [Op.Delete id] }

/-- The method `TodoHandler.ServeHTTP`, on the store `h.store`. -/
def ServeHTTP (s : MemoryStore) (env : Env) (r : Request) : Served :=
  let w := ((ResponseWriter.new.Set "Access-Control-Allow-Origin" "*").Set
    "Access-Control-Allow-Methods" "GET, POST, PUT, DELETE, OPTIONS").Set
    "Access-Control-Allow-Headers" "Content-Type"
  if r.Method = "OPTIONS" then
    { store := s, w := w.WriteHeader 200, calls := [] }
  else
    let path := TrimPrefix r.Path "/todos"
    if r.Method = "GET" ∧ path = "" then handleGetAll s env w
    else if r.Method = "GET" ∧ path ≠ "" then handleGetByID s w path
    else if r.Method = "POST" ∧ path = "" then handleCreate s env w r
    else if r.Method = "PUT" ∧ path ≠ "" then handleUpdate s env w r path
    else if r.Method = "DELETE" ∧ path ≠ "" then handleDelete s w path
    else { store := s, w := NotFound w, calls := [] }

/-- The identifiers `parseID` accepts, described without reference to the parser: the
text is an optional sign `+` or `-` followed by a non-empty sequence of decimal
digits, and the integer `n` it denotes lies in the range of `int`. -/
def SignedDecimal (text : List Char) (n : Int) : Prop :=
  ∃ digits : List Char, digits ≠ [] ∧ (∀ c ∈ digits, '0' ≤ c ∧ c ≤ '9') ∧
    ((text = digits ∨ text = '+' :: digits) ∧
        n = (Nat.ofDigits 10 (digits.reverse.map (fun c => c.toNat - 48)) : Nat) ∧ n ≤ maxInt ∨
     text = '-' :: digits ∧
        n = -((Nat.ofDigits 10 (digits.reverse.map (fun c => c.toNat - 48)) : Nat) : Int) ∧
        minInt ≤ n)

/-- The store after a sequence of requests served one after the other, each
with what it takes from its environment. -/
def serveAll (s : MemoryStore) (reqs : List (Env × Request)) : MemoryStore :=
  reqs.foldl (fun st er => (ServeHTTP st er.1 er.2).store) s

/-- Number of `Delete` calls of a sequence that return no error. -/
def numDeletes : MemoryStore → List Op → Nat
  | _, [] => 0
  | s, .Delete id :: ops =>
    (if (Delete s id).2 = none then 1 else 0) + numDeletes (Delete s id).1 ops
  | s, op :: ops => numDeletes (step s op) ops

/-- Every item of the collection exists and has a non-empty title. -/
def TitlesNonEmpty (s : MemoryStore) : Prop :=
  ∀ (k : Int) (p : Ptr), s.todos.lookup k = some p →
    ∃ x : Todo, s.deref p = some x ∧ x.Title ≠ ""

/-- The response writer after the three `Header().Set` calls that open
`ServeHTTP`: it carries the CORS headers and nothing else. -/
def corsWriter : ResponseWriter :=
  ((ResponseWriter.new.Set "Access-Control-Allow-Origin" "*").Set
    "Access-Control-Allow-Methods" "GET, POST, PUT, DELETE, OPTIONS").Set
    "Access-Control-Allow-Headers" "Content-Type"

/-! # Properties -/

/-! ## Machine integers: lemmas -/

theorem wrapInt_of_inRange (z : Int) (hlo : minInt ≤ z) (hhi : z ≤ maxInt) : wrapInt z = z := by
  unfold wrapInt
  unfold minInt maxInt intSize at *
  norm_num at *
  omega

theorem wrapInt_wrapInt_add (a b : Int) : wrapInt (wrapInt a + b) = wrapInt (a + b) := by
  unfold wrapInt intSize
  norm_num
  omega

theorem wrapInt_idem (a : Int) : wrapInt (wrapInt a) = wrapInt a := by
  have h := wrapInt_wrapInt_add a 0
  simpa using h

/-! ## Identifier numbering -/

theorem numCreates_cons_create (title : String) (now : Time) (ops : List Op) :
    numCreates (Op.Create title now :: ops) = numCreates ops + 1 := by
  simp [numCreates]

theorem numCreates_cons_other (op : Op) (ops : List Op)
    (h : ∀ title now, op ≠ Op.Create title now) :
    numCreates (op :: ops) = numCreates ops := by
  cases op <;> simp_all [numCreates]

theorem step_nextID_of_not_create (s : MemoryStore) (op : Op)
    (h : ∀ title now, op ≠ Op.Create title now) : (step s op).nextID = s.nextID := by
  cases op with
  | GetAll order => rfl
  | GetByID id => simp only [step, GetByID]; split <;> rfl
  | Create title now => exact absurd rfl (h title now)
  | Update id title completed now => simp only [step, Update]; split <;> rfl
  | Delete id => simp only [step, Delete]; split <;> rfl

theorem createdIDs_cons_other (s : MemoryStore) (op : Op) (ops : List Op)
    (h : ∀ title now, op ≠ Op.Create title now) :
    createdIDs s (op :: ops) = createdIDs (step s op) ops := by
  cases op with
  | Create title now => exact absurd rfl (h title now)
  | _ => rfl

theorem Create_deref (s : MemoryStore) (title : String) (now : Time) :
    (Create s title now).1.deref (Create s title now).2
      = some { ID := s.nextID, Title := title, Completed := false,
               CreatedAt := now, UpdatedAt := now } := by
  simp [Create, MemoryStore.deref]

/-- The identifier returned by the `i`-th later `Create` (counting from 0) is
the counter advanced `i` times with wrap-around. -/
theorem createdIDs_getElem (ops : List Op) :
    ∀ (s : MemoryStore) (i : Nat), wrapInt s.nextID = s.nextID → i < numCreates ops →
      (createdIDs s ops)[i]? = some (some (wrapInt (s.nextID + i))) := by
  induction ops with
  | nil => intro s i _ hi; simp [numCreates] at hi
  | cons op ops ih =>
    intro s i hs hi
    by_cases hc : ∃ title now, op = Op.Create title now
    · obtain ⟨title, now, rfl⟩ := hc
      rw [numCreates_cons_create] at hi
      have hd := Create_deref s title now
      cases i with
      | zero =>
        simp only [createdIDs, hd]
        simp [hs]
      | succ j =>
        have hj : j < numCreates ops := by omega
        have hn : (Create s title now).1.nextID = wrapInt (s.nextID + 1) := rfl
        have h := ih (Create s title now).1 j (by rw [hn, wrapInt_idem]) hj
        simp only [createdIDs, List.getElem?_cons_succ]
        rw [h, hn, wrapInt_wrapInt_add]
        congr 3
        push_cast
        ring
    · have hc2 : ∀ title now, op ≠ Op.Create title now := fun t n h => hc ⟨t, n, h⟩
      rw [numCreates_cons_other op ops hc2] at hi
      rw [createdIDs_cons_other s op ops hc2]
      have h := ih (step s op) i (by rw [step_nextID_of_not_create s op hc2]; exact hs) hi
      rw [h, step_nextID_of_not_create s op hc2]

theorem createdIDs_length (ops : List Op) :
    ∀ s : MemoryStore, (createdIDs s ops).length = numCreates ops := by
  induction ops with
  | nil => intro s; rfl
  | cons op ops ih =>
    intro s
    by_cases hc : ∃ title now, op = Op.Create title now
    · obtain ⟨title, now, rfl⟩ := hc
      simp [createdIDs, numCreates_cons_create, ih]
    · have hc2 : ∀ title now, op ≠ Op.Create title now := fun t n h => hc ⟨t, n, h⟩
      rw [numCreates_cons_other op ops hc2, createdIDs_cons_other s op ops hc2, ih]

theorem numCreates_replicate (title : String) (now : Time) (n : Nat) :
    numCreates (List.replicate n (Op.Create title now)) = n := by
  induction n with
  | zero => rfl
  | succ n ih => rw [List.replicate_succ, numCreates_cons_create, ih]

theorem wrapInt_NewMemoryStore : wrapInt NewMemoryStore.nextID = NewMemoryStore.nextID := by
  decide

theorem createdIDs_replicate_last (title : String) (now : Time) (n : Nat) (hn : 1 ≤ n) :
    (createdIDs NewMemoryStore (List.replicate n (Op.Create title now)))[n - 1]?
      = some (some (wrapInt n)) := by
  have h := createdIDs_getElem (List.replicate n (Op.Create title now)) NewMemoryStore (n - 1)
    wrapInt_NewMemoryStore (by rw [numCreates_replicate]; omega)
  rw [h]
  congr 3
  show (1 : Int) + ((n - 1 : Nat) : Int) = n
  omega

/-- C1 (as stated, refuted): the 2^63-th `Create` of a fresh store does not
return an item with ID 2^63; the counter has wrapped around and the ID is
-2^63. -/
theorem create_id_wraps_around :
    (createdIDs NewMemoryStore (List.replicate (2 ^ 63) (Op.Create "a" 0)))[2 ^ 63 - 1]?
        = some (some (-(2 ^ 63 : Int))) ∧
    (createdIDs NewMemoryStore (List.replicate (2 ^ 63) (Op.Create "a" 0)))[2 ^ 63 - 1]?
        ≠ some (some (((2 ^ 63 : Nat) : Int))) := by
  have h := createdIDs_replicate_last "a" 0 (2 ^ 63) (Nat.one_le_two_pow)
  have hw : wrapInt ((2 ^ 63 : Nat) : Int) = -(2 ^ 63 : Int) := by
    unfold wrapInt intSize
    norm_num
  rw [hw] at h
  refine ⟨h, ?_⟩
  rw [h]
  intro hc
  have hc2 := Option.some.inj (Option.some.inj hc)
  norm_num at hc2

/-- C1 (amended): starting from `NewMemoryStore()`, for every finite sequence
of store operations, every `Create` call returns an item, and for every
k ≤ 2^63 - 1 (the largest `int`) the k-th `Create` call of the sequence returns
an item whose ID is exactly k, whatever calls of `GetAll`, `GetByID`, `Update`
and `Delete` are interleaved. -/
theorem create_returns_kth_id (ops : List Op) :
    (createdIDs NewMemoryStore ops).length = numCreates ops ∧
    ∀ k : Nat, 1 ≤ k → k ≤ numCreates ops → (k : Int) ≤ maxInt →
      (createdIDs NewMemoryStore ops)[k - 1]? = some (some (k : Int)) := by
  refine ⟨createdIDs_length ops NewMemoryStore, ?_⟩
  intro k h1 hk hmax
  have h := createdIDs_getElem ops NewMemoryStore (k - 1) wrapInt_NewMemoryStore (by omega)
  rw [h]
  have he : NewMemoryStore.nextID + ((k - 1 : Nat) : Int) = k := by
    show (1 : Int) + ((k - 1 : Nat) : Int) = k
    omega
  rw [he, wrapInt_of_inRange k (by unfold minInt intSize; norm_num; omega) hmax]

/-- Witness for C1: three `Create` calls interleaved with a `Delete`, an
`Update` and two reads; the third `Create` returns ID 3. -/
theorem create_returns_kth_id_witness :
    (createdIDs NewMemoryStore
        [Op.Create "a" 5, Op.Delete 1, Op.Create "b" 6, Op.Update 2 "c" true 7,
         Op.GetAll [2], Op.GetByID 1, Op.Create "d" 8])[3 - 1]? = some (some ((3 : Nat) : Int)) :=
  (create_returns_kth_id
      [Op.Create "a" 5, Op.Delete 1, Op.Create "b" 6, Op.Update 2 "c" true 7,
       Op.GetAll [2], Op.GetByID 1, Op.Create "d" 8]).2 3 (by decide) (by decide) (by decide)

/-! ## Single operations -/

theorem GetByID_of_lookup {s : MemoryStore} {id : Int} {p : Ptr}
    (h : s.todos.lookup id = some p) : GetByID s id = (s, .ok p) := by
  simp only [GetByID, h]

theorem GetByID_of_lookup_none {s : MemoryStore} {id : Int}
    (h : s.todos.lookup id = none) : GetByID s id = (s, .error GoError.ErrNotFound) := by
  simp only [GetByID, h]

theorem Update_of_lookup {s : MemoryStore} {id : Int} {p : Ptr} (title : String)
    (completed : Bool) (now : Time) (h : s.todos.lookup id = some p) :
    Update s id title completed now =
      (MemoryStore.mk
        (s.heap.modify
          (fun t => { t with Title := title, Completed := completed, UpdatedAt := now }) p)
        s.todos s.nextID,
       .ok p) := by
  simp only [Update, h]

theorem Update_of_lookup_none {s : MemoryStore} {id : Int} (title : String)
    (completed : Bool) (now : Time) (h : s.todos.lookup id = none) :
    Update s id title completed now = (s, .error GoError.ErrNotFound) := by
  simp only [Update, h]

theorem Delete_of_lookup {s : MemoryStore} {id : Int} {p : Ptr}
    (h : s.todos.lookup id = some p) :
    Delete s id = ({ s with todos := s.todos.erase id }, none) := by
  simp only [Delete, h]

theorem Delete_of_lookup_none {s : MemoryStore} {id : Int}
    (h : s.todos.lookup id = none) : Delete s id = (s, some GoError.ErrNotFound) := by
  simp only [Delete, h]

theorem Create_todos_lookup_self (s : MemoryStore) (title : String) (now : Time) :
    (Create s title now).1.todos.lookup s.nextID = some (Create s title now).2 := by
  simp [Create]

/-- C2: for every store state, title and clock value, the item `Create`
returns is found again by `GetByID` under its own ID: the lookup succeeds,
yields the very pointer `Create` returned, and the item has the given title,
`Completed = false` and `CreatedAt = UpdatedAt = now`. -/
theorem create_then_getByID (s : MemoryStore) (t : String) (now : Time) :
    ∃ x : Todo, (Create s t now).1.deref (Create s t now).2 = some x ∧
      GetByID (Create s t now).1 x.ID = ((Create s t now).1, .ok (Create s t now).2) ∧
      x.Title = t ∧ x.Completed = false ∧ x.CreatedAt = now ∧ x.UpdatedAt = now := by
  refine ⟨_, Create_deref s t now, ?_, rfl, rfl, rfl, rfl⟩
  exact GetByID_of_lookup (Create_todos_lookup_self s t now)

/-- C3: for every store state and id, if `Delete(id)` returns no error then on
the resulting store `GetByID(id)` returns `ErrNotFound`, `Update(id, t, c)`
returns `ErrNotFound` for every `t` and `c` (and leaves the store as it is),
and a second `Delete(id)` returns `ErrNotFound`. -/
theorem delete_then_not_found (s : MemoryStore) (id : Int) (h : (Delete s id).2 = none) :
    (GetByID (Delete s id).1 id).2 = .error GoError.ErrNotFound ∧
    (∀ (t : String) (c : Bool) (now : Time),
      (Update (Delete s id).1 id t c now).2 = .error GoError.ErrNotFound) ∧
    (Delete (Delete s id).1 id).2 = some GoError.ErrNotFound := by
  cases hl : s.todos.lookup id with
  | none => rw [Delete_of_lookup_none hl] at h; cases h
  | some p =>
    have hd : ((Delete s id).1).todos.lookup id = none := by
      rw [Delete_of_lookup hl]; exact AList.lookup_erase id s.todos
    refine ⟨?_, ?_, ?_⟩
    · rw [GetByID_of_lookup_none hd]
    · intro t c now; rw [Update_of_lookup_none t c now hd]
    · rw [Delete_of_lookup_none hd]

/-- Witness for C3: delete the only item of a one-item store. -/
theorem delete_then_not_found_witness :
    (Delete (Create NewMemoryStore "a" 0).1 1).2 = none ∧
    (GetByID (Delete (Create NewMemoryStore "a" 0).1 1).1 1).2 = .error GoError.ErrNotFound ∧
    (Delete (Delete (Create NewMemoryStore "a" 0).1 1).1 1).2 = some GoError.ErrNotFound :=
  ⟨by decide,
   (delete_then_not_found (Create NewMemoryStore "a" 0).1 1 (by decide)).1,
   (delete_then_not_found (Create NewMemoryStore "a" 0).1 1 (by decide)).2.2⟩

/-- C5: for every store state in which `id` is present with item `x`, every
title, flag and clock value, `Update(id, t, c)` returns no error and the
pointer to that item, which now has `Title = t`, `Completed = c`,
`UpdatedAt = now` and the `ID` and `CreatedAt` of `x`; a following
`GetByID(id)` returns the same pointer and leaves the store as it is. -/
theorem update_present (s : MemoryStore) (id : Int) (p : Ptr) (x : Todo)
    (t : String) (c : Bool) (now : Time)
    (hp : s.todos.lookup id = some p) (hx : s.deref p = some x) :
    (Update s id t c now).2 = .ok p ∧
    (Update s id t c now).1.deref p =
      some { ID := x.ID, Title := t, Completed := c, CreatedAt := x.CreatedAt,
             UpdatedAt := now } ∧
    GetByID (Update s id t c now).1 id = ((Update s id t c now).1, .ok p) := by
  rw [Update_of_lookup t c now hp]
  refine ⟨rfl, ?_, ?_⟩
  · simp only [MemoryStore.deref] at hx ⊢
    rw [List.getElem?_modify_eq, hx]
    rfl
  · exact GetByID_of_lookup hp

/-- Witness for C5: update the only item of a one-item store. -/
theorem update_present_witness :
    (Update (Create NewMemoryStore "a" 3).1 1 "b" true 9).1.deref 0 =
      some { ID := 1, Title := "b", Completed := true, CreatedAt := 3, UpdatedAt := 9 } :=
  (update_present (Create NewMemoryStore "a" 3).1 1 0
    { ID := 1, Title := "a", Completed := false, CreatedAt := 3, UpdatedAt := 3 }
    "b" true 9 (by decide) (by decide)).2.1

/-- C6: for every store state in which `id` is present, applying
`Update(id, t, c)` twice in succession succeeds both times on the same item,
which after the second call has the same `Title = t`, `Completed = c`, `ID`
and `CreatedAt` as after the first; and when the second call's clock value is
not earlier than the first's, `UpdatedAt` after the second call is at least
`UpdatedAt` after the first. -/
theorem update_twice (s : MemoryStore) (id : Int) (p : Ptr) (x : Todo)
    (t : String) (c : Bool) (now1 now2 : Time)
    (hp : s.todos.lookup id = some p) (hx : s.deref p = some x) :
    ∃ y1 y2 : Todo,
      (Update s id t c now1).2 = .ok p ∧
      (Update s id t c now1).1.deref p = some y1 ∧
      (Update (Update s id t c now1).1 id t c now2).2 = .ok p ∧
      (Update (Update s id t c now1).1 id t c now2).1.deref p = some y2 ∧
      y1.Title = t ∧ y1.Completed = c ∧ y2.Title = t ∧ y2.Completed = c ∧
      y2.ID = y1.ID ∧ y2.CreatedAt = y1.CreatedAt ∧
      (now1 ≤ now2 → y1.UpdatedAt ≤ y2.UpdatedAt) := by
  have hp1 : (Update s id t c now1).1.todos.lookup id = some p := by
    rw [Update_of_lookup t c now1 hp]; exact hp
  have hx1 : (Update s id t c now1).1.deref p =
      some { ID := x.ID, Title := t, Completed := c, CreatedAt := x.CreatedAt,
             UpdatedAt := now1 } := by
    rw [Update_of_lookup t c now1 hp]
    simp only [MemoryStore.deref] at hx ⊢
    rw [List.getElem?_modify_eq, hx]
    rfl
  have hx2 : (Update (Update s id t c now1).1 id t c now2).1.deref p =
      some { ID := x.ID, Title := t, Completed := c, CreatedAt := x.CreatedAt,
             UpdatedAt := now2 } := by
    rw [Update_of_lookup t c now2 hp1]
    simp only [MemoryStore.deref] at hx1 ⊢
    rw [List.getElem?_modify_eq, hx1]
    rfl
  refine ⟨_, _, ?_, hx1, ?_, hx2, rfl, rfl, rfl, rfl, rfl, rfl, fun h => h⟩
  · rw [Update_of_lookup t c now1 hp]
  · rw [Update_of_lookup t c now2 hp1]

/-- Witness for C6: the same update applied twice to the only item of a
one-item store, at instants 5 and 9. -/
theorem update_twice_witness :
    ∃ y1 y2 : Todo,
      (Update (Create NewMemoryStore "a" 3).1 1 "b" true 5).2 = .ok 0 ∧
      (Update (Create NewMemoryStore "a" 3).1 1 "b" true 5).1.deref 0 = some y1 ∧
      (Update (Update (Create NewMemoryStore "a" 3).1 1 "b" true 5).1 1 "b" true 9).2 = .ok 0 ∧
      (Update (Update (Create NewMemoryStore "a" 3).1 1 "b" true 5).1 1 "b" true 9).1.deref 0
        = some y2 ∧
      y1.Title = "b" ∧ y1.Completed = true ∧ y2.Title = "b" ∧ y2.Completed = true ∧
      y2.ID = y1.ID ∧ y2.CreatedAt = y1.CreatedAt ∧
      ((5 : Time) ≤ 9 → y1.UpdatedAt ≤ y2.UpdatedAt) :=
  update_twice (Create NewMemoryStore "a" 3).1 1 0
    { ID := 1, Title := "a", Completed := false, CreatedAt := 3, UpdatedAt := 3 }
    "b" true 5 9 (by decide) (by decide)

/-- C7: for every store state and id, each of `GetByID(id)`, `Update(id, t, c)`
and `Delete(id)` returns `ErrNotFound` exactly when `id` is not a key of the
collection, returns no other error, and whenever one of them returns
`ErrNotFound` the store (heap, collection and `nextID`) is exactly as before
the call; `GetByID` never modifies the store. -/
theorem not_found_iff_absent (s : MemoryStore) (id : Int) (t : String) (c : Bool)
    (now : Time) :
    ((GetByID s id).2 = .error GoError.ErrNotFound ↔ id ∉ s.todos) ∧
    ((Update s id t c now).2 = .error GoError.ErrNotFound ↔ id ∉ s.todos) ∧
    ((Delete s id).2 = some GoError.ErrNotFound ↔ id ∉ s.todos) ∧
    ((Update s id t c now).2 = .error GoError.ErrNotFound → (Update s id t c now).1 = s) ∧
    ((Delete s id).2 = some GoError.ErrNotFound → (Delete s id).1 = s) ∧
    (GetByID s id).1 = s := by
  cases hl : s.todos.lookup id with
  | none =>
    have hn : id ∉ s.todos := AList.lookup_eq_none.mp hl
    rw [GetByID_of_lookup_none hl, Update_of_lookup_none t c now hl, Delete_of_lookup_none hl]
    simp [hn]
  | some p =>
    have hm : id ∈ s.todos := by
      rw [← AList.lookup_isSome, hl]; rfl
    rw [GetByID_of_lookup hl, Update_of_lookup t c now hl, Delete_of_lookup hl]
    simp [hm]

/-- Witness for C7: an `Update` and a `Delete` of id 7, absent from a one-item
store, leave that store unchanged. -/
theorem not_found_iff_absent_witness :
    (Update (Create NewMemoryStore "a" 3).1 7 "b" true 9).1 = (Create NewMemoryStore "a" 3).1 ∧
    (Delete (Create NewMemoryStore "a" 3).1 7).1 = (Create NewMemoryStore "a" 3).1 :=
  ⟨(not_found_iff_absent (Create NewMemoryStore "a" 3).1 7 "b" true 9).2.2.2.1 rfl,
   (not_found_iff_absent (Create NewMemoryStore "a" 3).1 7 "b" true 9).2.2.2.2.1 rfl⟩

/-! ## GetAll -/

theorem GetAll_loop (s : MemoryStore) (order : List Int) :
    ∀ acc : List Ptr,
      order.foldl
          (fun todos k =>
            match s.todos.lookup k with
            | some todo => Slice.append todos todo
            | none => todos)
          (some acc)
        = some (acc ++ order.filterMap (fun k => s.todos.lookup k)) := by
  induction order with
  | nil => intro acc; simp
  | cons k ks ih =>
    intro acc
    cases hk : s.todos.lookup k with
    | none => simp only [List.foldl_cons, hk, List.filterMap_cons]; exact ih acc
    | some p =>
      simp only [List.foldl_cons, hk, List.filterMap_cons]
      rw [show Slice.append (some acc) p = some (acc ++ [p]) from rfl, ih (acc ++ [p])]
      simp

theorem GetAll_eq (s : MemoryStore) (order : List Int) :
    GetAll s order = (s, some (order.filterMap (fun k => s.todos.lookup k))) := by
  unfold GetAll Slice.make
  rw [GetAll_loop s order []]
  simp

theorem keys_filterMap_lookup (m : AList (fun _ : Int => Ptr)) :
    m.keys.filterMap (fun k => m.lookup k) = m.entries.map (fun e => e.2) := by
  have h : ∀ e ∈ m.entries, m.lookup e.1 = some e.2 := by
    intro e he
    obtain ⟨k, p⟩ := e
    exact AList.mem_lookup_iff.mpr he
  unfold AList.keys List.keys
  rw [List.filterMap_map, ← List.filterMap_eq_map]
  apply List.filterMap_congr
  intro e he
  exact h e he

/-- C9: for every store state, and whatever order the runtime enumerates the
keys of the map in, `GetAll` returns a non-nil sequence that is a permutation
of the values of the collection (every stored item exactly once, nothing
else), of length the number of keys, and empty when the collection is; it has
no failure result and leaves the store unchanged. -/
theorem getAll_snapshot (s : MemoryStore) (order : List Int)
    (horder : order.Perm s.todos.keys) :
    (GetAll s order).1 = s ∧
    ∃ l : List Ptr, (GetAll s order).2 = some l ∧
      l.Perm (s.todos.entries.map (fun e => e.2)) ∧
      l.length = s.todos.keys.length ∧
      (s.todos.keys = [] → l = []) := by
  rw [GetAll_eq]
  have hp : (order.filterMap (fun k => s.todos.lookup k)).Perm
      (s.todos.entries.map (fun e => e.2)) := by
    rw [← keys_filterMap_lookup]
    exact horder.filterMap _
  refine ⟨rfl, _, rfl, hp, ?_, ?_⟩
  · rw [hp.length_eq]
    simp [AList.keys, List.keys]
  · intro hk
    have hl := hp.length_eq
    have : s.todos.entries = [] := by
      simpa [AList.keys, List.keys] using hk
    rw [this] at hl
    simpa using hl

/-- Witness for C9: a store with items 1 and 3 (item 2 deleted), enumerated in
the order 1, 3, yields the two pointers 0 and 2. -/
theorem getAll_snapshot_witness :
    (GetAll (run NewMemoryStore
        [Op.Create "a" 1, Op.Create "b" 2, Op.Create "c" 3, Op.Delete 2]) [1, 3]).2
      = some [0, 2] ∧
    ∃ l : List Ptr,
      (GetAll (run NewMemoryStore
        [Op.Create "a" 1, Op.Create "b" 2, Op.Create "c" 3, Op.Delete 2]) [1, 3]).2 = some l ∧
      l.Perm ((run NewMemoryStore
        [Op.Create "a" 1, Op.Create "b" 2, Op.Create "c" 3, Op.Delete 2]).todos.entries.map
          (fun e => e.2)) :=
  ⟨by decide,
   (getAll_snapshot (run NewMemoryStore
        [Op.Create "a" 1, Op.Create "b" 2, Op.Create "c" 3, Op.Delete 2]) [1, 3]
      (by decide)).2.imp (fun _ h => ⟨h.1, h.2.1⟩)⟩

/-! ## Timestamps -/

theorem run_cons (s : MemoryStore) (op : Op) (ops : List Op) :
    run s (op :: ops) = run (step s op) ops := rfl

theorem GetByID_fst (s : MemoryStore) (id : Int) : (GetByID s id).1 = s := by
  unfold GetByID; split <;> rfl

theorem deref_append_of_deref {s : MemoryStore} {p : Ptr} {x : Todo} (t : Todo)
    (h : s.deref p = some x) : (s.heap ++ [t])[p]? = some x := by
  unfold MemoryStore.deref at h
  have hlt : p < s.heap.length := by
    by_contra hc
    have hge : s.heap.length ≤ p := Nat.le_of_not_lt hc
    rw [List.getElem?_eq_none hge] at h
    cases h
  rw [List.getElem?_append_left hlt, h]

theorem TimesOrdered_create (s : MemoryStore) (title : String) (now : Time)
    (future : List Time) (h : TimesOrdered s (now :: future))
    (hnow : ∀ r ∈ future, now ≤ r) :
    TimesOrdered (Create s title now).1 future := by
  intro k p hk
  by_cases hkn : k = s.nextID
  · subst hkn
    rw [Create_todos_lookup_self] at hk
    cases hk
    exact ⟨_, Create_deref s title now, le_refl _, hnow⟩
  · have hk2 : s.todos.lookup k = some p := by
      simpa [Create, AList.lookup_insert_ne hkn] using hk
    obtain ⟨x, hx, hcu, hf⟩ := h k p hk2
    exact ⟨x, deref_append_of_deref _ hx, hcu, fun r hr => hf r (List.mem_cons_of_mem _ hr)⟩

theorem TimesOrdered_update (s : MemoryStore) (id : Int) (q : Ptr) (title : String)
    (completed : Bool) (now : Time) (future : List Time)
    (hq : s.todos.lookup id = some q) (h : TimesOrdered s (now :: future)) :
    TimesOrdered (Update s id title completed now).1 future := by
  intro k p hk
  rw [Update_of_lookup title completed now hq] at hk ⊢
  obtain ⟨x, hx, hcu, hf⟩ := h k p hk
  unfold MemoryStore.deref at hx ⊢
  simp only [List.getElem?_modify, hx, Option.map_eq_map, Option.map_some']
  by_cases hqp : q = p
  · simp only [hqp, if_true]
    exact ⟨_, rfl, hf now (List.mem_cons_self _ _),
      fun r hr => hf r (List.mem_cons_of_mem _ hr)⟩
  · simp only [hqp, if_false]
    exact ⟨_, rfl, hcu, fun r hr => hf r (List.mem_cons_of_mem _ hr)⟩

theorem TimesOrdered_delete (s : MemoryStore) (id : Int) (future : List Time)
    (h : TimesOrdered s future) : TimesOrdered (Delete s id).1 future := by
  cases hl : s.todos.lookup id with
  | none => rw [Delete_of_lookup_none hl]; exact h
  | some q =>
    rw [Delete_of_lookup hl]
    intro k p hk
    by_cases hki : k = id
    · subst hki
      have : (s.todos.erase k).lookup k = none := AList.lookup_erase k s.todos
      simp only [this] at hk
      cases hk
    · have hk2 : s.todos.lookup k = some p := by
        simpa [AList.lookup_erase_ne hki] using hk
      exact h k p hk2

/-- The timestamp invariant is carried along any sequence of calls whose clock
readings are non-decreasing. -/
theorem TimesOrdered_run (ops : List Op) :
    ∀ s : MemoryStore, TimesOrdered s (clockReadings s ops) →
      (clockReadings s ops).Pairwise (· ≤ ·) → TimesOrdered (run s ops) [] := by
  induction ops with
  | nil =>
    intro s h _ k p hk
    obtain ⟨x, hx, hcu, _⟩ := h k p hk
    exact ⟨x, hx, hcu, fun r hr => by cases hr⟩
  | cons op ops ih =>
    intro s h hsorted
    rw [run_cons]
    cases op with
    | GetAll order => exact ih _ h hsorted
    | GetByID id =>
      have e : step s (Op.GetByID id) = s := GetByID_fst s id
      have e2 : clockReadings s (Op.GetByID id :: ops) = clockReadings s ops := by
        show clockReadings (step s (Op.GetByID id)) ops = _
        rw [e]
      rw [e]
      rw [e2] at h hsorted
      exact ih _ h hsorted
    | Create title now =>
      have e2 : clockReadings s (Op.Create title now :: ops)
          = now :: clockReadings (Create s title now).1 ops := rfl
      rw [e2] at h hsorted
      rw [List.pairwise_cons] at hsorted
      exact ih _ (TimesOrdered_create s title now _ h hsorted.1) hsorted.2
    | Update id title completed now =>
      cases hl : s.todos.lookup id with
      | none =>
        have e : step s (Op.Update id title completed now) = s := by
          show (Update s id title completed now).1 = s
          rw [Update_of_lookup_none title completed now hl]
        have e2 : clockReadings s (Op.Update id title completed now :: ops)
            = clockReadings s ops := by
          simp only [clockReadings, hl]
          rw [Update_of_lookup_none title completed now hl]
        rw [e]
        rw [e2] at h hsorted
        exact ih _ h hsorted
      | some q =>
        have e2 : clockReadings s (Op.Update id title completed now :: ops)
            = now :: clockReadings (Update s id title completed now).1 ops := by
          simp only [clockReadings, hl]
        rw [e2] at h hsorted
        rw [List.pairwise_cons] at hsorted
        exact ih _ (TimesOrdered_update s id q title completed now _ hl h) hsorted.2
    | Delete id =>
      have e2 : clockReadings s (Op.Delete id :: ops)
          = clockReadings (Delete s id).1 ops := rfl
      rw [e2] at h hsorted
      exact ih _ (TimesOrdered_delete s id _ h) hsorted

theorem TimesOrdered_NewMemoryStore (future : List Time) :
    TimesOrdered NewMemoryStore future := by
  intro k p hk
  simp [NewMemoryStore] at hk

/-- C8: in every store state reached from `NewMemoryStore()` by a sequence of
store operations whose clock readings are non-decreasing in call order, every
item of the collection exists and satisfies `UpdatedAt ≥ CreatedAt`. -/
theorem updatedAt_ge_createdAt (ops : List Op)
    (hclock : (clockReadings NewMemoryStore ops).Pairwise (· ≤ ·)) :
    ∀ (k : Int) (p : Ptr), (run NewMemoryStore ops).todos.lookup k = some p →
      ∃ x : Todo, (run NewMemoryStore ops).deref p = some x ∧ x.CreatedAt ≤ x.UpdatedAt := by
  intro k p hk
  obtain ⟨x, hx, hcu, _⟩ :=
    TimesOrdered_run ops NewMemoryStore (TimesOrdered_NewMemoryStore _) hclock k p hk
  exact ⟨x, hx, hcu⟩

/-- Witness for C8: two creates and an update at instants 1, 2, 5; the updated
item 1 has `CreatedAt = 1 ≤ UpdatedAt = 5`. -/
theorem updatedAt_ge_createdAt_witness :
    (run NewMemoryStore
        [Op.Create "a" 1, Op.Create "b" 2, Op.Update 1 "c" true 5]).todos.lookup 1 = some 0 ∧
    ∃ x : Todo,
      (run NewMemoryStore
        [Op.Create "a" 1, Op.Create "b" 2, Op.Update 1 "c" true 5]).deref 0 = some x ∧
      x.CreatedAt ≤ x.UpdatedAt :=
  ⟨by decide,
   updatedAt_ge_createdAt [Op.Create "a" 1, Op.Create "b" 2, Op.Update 1 "c" true 5]
     (by decide) 1 0 (by decide)⟩

/-! ## Uniqueness of identifiers -/

theorem run_append (s : MemoryStore) (ops1 ops2 : List Op) :
    run s (ops1 ++ ops2) = run (run s ops1) ops2 := by
  simp [run, List.foldl_append]

theorem numCreates_append (ops1 ops2 : List Op) :
    numCreates (ops1 ++ ops2) = numCreates ops1 + numCreates ops2 := by
  simp [numCreates, List.filter_append]

theorem Update_nextID (s : MemoryStore) (id : Int) (t : String) (c : Bool) (now : Time) :
    (Update s id t c now).1.nextID = s.nextID := by
  unfold Update; split <;> rfl

theorem Delete_nextID (s : MemoryStore) (id : Int) : (Delete s id).1.nextID = s.nextID := by
  unfold Delete; split <;> rfl

theorem Create_nextID_of_lt (s : MemoryStore) (t : String) (now : Time)
    (hlo : 1 ≤ s.nextID) (hhi : s.nextID < maxInt) :
    (Create s t now).1.nextID = s.nextID + 1 := by
  show wrapInt (s.nextID + 1) = s.nextID + 1
  apply wrapInt_of_inRange
  · unfold minInt intSize; norm_num; omega
  · omega

theorem IDInvariant_create (s : MemoryStore) (t : String) (now : Time)
    (h : IDInvariant s) (hhi : s.nextID < maxInt) :
    IDInvariant (Create s t now).1 := by
  obtain ⟨h1, hk⟩ := h
  have hn := Create_nextID_of_lt s t now h1 hhi
  refine ⟨by rw [hn]; omega, ?_⟩
  intro k p hl
  rw [hn]
  by_cases hkn : k = s.nextID
  · subst hkn
    rw [Create_todos_lookup_self] at hl
    cases hl
    exact ⟨h1, by omega, _, Create_deref s t now, rfl⟩
  · have hl2 : s.todos.lookup k = some p := by
      simpa [Create, AList.lookup_insert_ne hkn] using hl
    obtain ⟨hk1, hk2, x, hx, hid⟩ := hk k p hl2
    exact ⟨hk1, by omega, x, deref_append_of_deref _ hx, hid⟩

theorem IDInvariant_update (s : MemoryStore) (id : Int) (t : String) (c : Bool)
    (now : Time) (h : IDInvariant s) : IDInvariant (Update s id t c now).1 := by
  cases hl : s.todos.lookup id with
  | none => rw [Update_of_lookup_none t c now hl]; exact h
  | some q =>
    obtain ⟨h1, hk⟩ := h
    rw [Update_of_lookup t c now hl]
    refine ⟨h1, ?_⟩
    intro k p hkp
    obtain ⟨hk1, hk2, x, hx, hid⟩ := hk k p hkp
    refine ⟨hk1, hk2, ?_⟩
    unfold MemoryStore.deref at hx ⊢
    simp only [List.getElem?_modify, hx, Option.map_eq_map, Option.map_some']
    by_cases hqp : q = p
    · simp only [hqp, if_true]; exact ⟨_, rfl, hid⟩
    · simp only [hqp, if_false]; exact ⟨_, rfl, hid⟩

theorem IDInvariant_delete (s : MemoryStore) (id : Int) (h : IDInvariant s) :
    IDInvariant (Delete s id).1 := by
  cases hl : s.todos.lookup id with
  | none => rw [Delete_of_lookup_none hl]; exact h
  | some q =>
    obtain ⟨h1, hk⟩ := h
    rw [Delete_of_lookup hl]
    refine ⟨h1, ?_⟩
    intro k p hkp
    by_cases hki : k = id
    · subst hki
      have : (s.todos.erase k).lookup k = none := AList.lookup_erase k s.todos
      simp only [this] at hkp
      cases hkp
    · have hk2 : s.todos.lookup k = some p := by
        simpa [AList.lookup_erase_ne hki] using hkp
      exact hk k p hk2

/-- While the counter stays below the largest `int`, the numbering invariant is
carried along any sequence of calls and the counter counts the creates. -/
theorem IDInvariant_run (ops : List Op) :
    ∀ s : MemoryStore, IDInvariant s → s.nextID + (numCreates ops : Int) ≤ maxInt →
      IDInvariant (run s ops) ∧ (run s ops).nextID = s.nextID + (numCreates ops : Int) := by
  induction ops with
  | nil => intro s h _; exact ⟨h, by simp [run, numCreates]⟩
  | cons op ops ih =>
    intro s h hb
    rw [run_cons]
    cases op with
    | GetAll order =>
      rw [numCreates_cons_other _ _ (by intro t n; simp)] at hb ⊢
      exact ih _ h hb
    | GetByID id =>
      rw [numCreates_cons_other _ _ (by intro t n; simp)] at hb ⊢
      have e : step s (Op.GetByID id) = s := GetByID_fst s id
      rw [e]
      exact ih _ h hb
    | Create title now =>
      rw [numCreates_cons_create] at hb ⊢
      push_cast at hb ⊢
      have hlt : s.nextID < maxInt := by omega
      have hn := Create_nextID_of_lt s title now h.1 hlt
      have := ih (Create s title now).1 (IDInvariant_create s title now h hlt)
        (by rw [hn]; omega)
      refine ⟨this.1, ?_⟩
      show (run (Create s title now).1 ops).nextID = _
      rw [this.2, hn]
      ring
    | Update id title completed now =>
      rw [numCreates_cons_other _ _ (by intro t n; simp)] at hb ⊢
      have := ih (Update s id title completed now).1
        (IDInvariant_update s id title completed now h) (by rw [Update_nextID]; exact hb)
      rw [Update_nextID] at this
      exact this
    | Delete id =>
      rw [numCreates_cons_other _ _ (by intro t n; simp)] at hb ⊢
      have := ih (Delete s id).1 (IDInvariant_delete s id h) (by rw [Delete_nextID]; exact hb)
      rw [Delete_nextID] at this
      exact this

theorem IDInvariant_NewMemoryStore : IDInvariant NewMemoryStore := by
  refine ⟨le_refl _, ?_⟩
  intro k p hk
  simp [NewMemoryStore] at hk

/-- While the counter stays below the largest `int`, an id that is below the
counter and absent from the collection stays absent. -/
theorem absent_stays_absent (ops : List Op) :
    ∀ (s : MemoryStore) (id : Int), s.todos.lookup id = none → id < s.nextID →
      1 ≤ s.nextID → s.nextID + (numCreates ops : Int) ≤ maxInt →
      (run s ops).todos.lookup id = none := by
  induction ops with
  | nil => intro s id h _ _ _; exact h
  | cons op ops ih =>
    intro s id habs hlt h1 hb
    rw [run_cons]
    cases op with
    | GetAll order =>
      rw [numCreates_cons_other _ _ (by intro t n; simp)] at hb
      exact ih _ id habs hlt h1 hb
    | GetByID gid =>
      rw [numCreates_cons_other _ _ (by intro t n; simp)] at hb
      have e : step s (Op.GetByID gid) = s := GetByID_fst s gid
      rw [e]
      exact ih _ id habs hlt h1 hb
    | Create title now =>
      rw [numCreates_cons_create] at hb
      push_cast at hb
      have hn := Create_nextID_of_lt s title now h1 (by omega)
      have hne : id ≠ s.nextID := by omega
      apply ih (Create s title now).1 id
      · simpa [Create, AList.lookup_insert_ne hne] using habs
      · rw [hn]; omega
      · rw [hn]; omega
      · rw [hn]; omega
    | Update uid title completed now =>
      rw [numCreates_cons_other _ _ (by intro t n; simp)] at hb
      apply ih (Update s uid title completed now).1 id
      · cases hl : s.todos.lookup uid with
        | none => rw [Update_of_lookup_none title completed now hl]; exact habs
        | some q => rw [Update_of_lookup title completed now hl]; exact habs
      · rw [Update_nextID]; exact hlt
      · rw [Update_nextID]; exact h1
      · rw [Update_nextID]; exact hb
    | Delete did =>
      rw [numCreates_cons_other _ _ (by intro t n; simp)] at hb
      apply ih (Delete s did).1 id
      · cases hl : s.todos.lookup did with
        | none => rw [Delete_of_lookup_none hl]; exact habs
        | some q =>
          rw [Delete_of_lookup hl]
          by_cases hid : id = did
          · subst hid; exact AList.lookup_erase id s.todos
          · show (s.todos.erase did).lookup id = none
            rw [AList.lookup_erase_ne hid]; exact habs
      · rw [Delete_nextID]; exact hlt
      · rw [Delete_nextID]; exact h1
      · rw [Delete_nextID]; exact hb

theorem run_nextID_wrap (ops : List Op) :
    ∀ s : MemoryStore, wrapInt s.nextID = s.nextID →
      (run s ops).nextID = wrapInt (s.nextID + (numCreates ops : Int)) := by
  induction ops with
  | nil => intro s hs; simp [run, numCreates, hs]
  | cons op ops ih =>
    intro s hs
    rw [run_cons]
    by_cases hc : ∃ title now, op = Op.Create title now
    · obtain ⟨title, now, rfl⟩ := hc
      have hn : (step s (Op.Create title now)).nextID = wrapInt (s.nextID + 1) := rfl
      rw [ih _ (by rw [hn, wrapInt_idem]), hn, wrapInt_wrapInt_add, numCreates_cons_create]
      congr 1
      push_cast
      ring
    · have hc2 : ∀ title now, op ≠ Op.Create title now := fun t n h => hc ⟨t, n, h⟩
      rw [ih _ (by rw [step_nextID_of_not_create s op hc2]; exact hs),
        step_nextID_of_not_create s op hc2, numCreates_cons_other op ops hc2]

theorem mem_run_replicate_create (title : String) (now : Time) (k : Int) (n : Nat) :
    ∀ s : MemoryStore, k ∈ s.todos →
      k ∈ (run s (List.replicate n (Op.Create title now))).todos := by
  induction n with
  | zero => intro s h; exact h
  | succ n ih =>
    intro s h
    rw [List.replicate_succ, run_cons]
    apply ih
    show k ∈ s.todos.insert s.nextID s.heap.length
    rw [AList.mem_insert]
    exact Or.inr h

theorem one_mem_run_replicate_create (title : String) (now : Time) (n : Nat) :
    (1 : Int) ∈ (run NewMemoryStore (List.replicate (n + 1) (Op.Create title now))).todos := by
  rw [List.replicate_succ, run_cons]
  apply mem_run_replicate_create
  show (1 : Int) ∈ (∅ : AList (fun _ : Int => Ptr)).insert 1 0
  rw [AList.mem_insert]
  exact Or.inl rfl

/-- C4 (as stated, refuted): the store reached from `NewMemoryStore()` by
2^63 - 1 calls of `Create` still holds key 1, but its counter has wrapped to
-2^63, so the key is not below `nextID` and the numbering invariant fails. -/
theorem id_invariant_fails_after_wrap :
    (1 : Int) ∈ (run NewMemoryStore (List.replicate (2 ^ 63 - 1) (Op.Create "a" 0))).todos ∧
    (run NewMemoryStore (List.replicate (2 ^ 63 - 1) (Op.Create "a" 0))).nextID
      = -(2 ^ 63 : Int) ∧
    ¬ IDInvariant (run NewMemoryStore (List.replicate (2 ^ 63 - 1) (Op.Create "a" 0))) := by
  have e : (2 ^ 63 - 1 : Nat) = (2 ^ 63 - 2) + 1 := by norm_num
  have hmem : (1 : Int) ∈
      (run NewMemoryStore (List.replicate (2 ^ 63 - 1) (Op.Create "a" 0))).todos := by
    rw [e]
    exact one_mem_run_replicate_create "a" 0 (2 ^ 63 - 2)
  have hnext : (run NewMemoryStore (List.replicate (2 ^ 63 - 1) (Op.Create "a" 0))).nextID
      = -(2 ^ 63 : Int) := by
    rw [run_nextID_wrap _ _ wrapInt_NewMemoryStore, numCreates_replicate]
    show wrapInt ((1 : Int) + ((2 ^ 63 - 1 : Nat) : Int)) = _
    unfold wrapInt intSize
    norm_num
  refine ⟨hmem, hnext, ?_⟩
  intro hinv
  have h1 := hinv.1
  rw [hnext] at h1
  norm_num at h1

/-- C4 (amended): in every store state reached from `NewMemoryStore()` by a
sequence of store operations with fewer than 2^63 - 1 calls of `Create`, every
key of the collection is at least 1 and strictly less than `nextID`, and the
item stored under key `k` exists and has `ID = k`; `nextID` is the number of
creates so far plus one. Consequently a further `Create` returns an item whose
`ID` is the old `nextID`, which is not a key of the collection and was
returned by no earlier `Create`, and it keeps every existing key with its
pointer and item; and once `Delete(id)` has succeeded, `GetByID(id)` returns
`ErrNotFound` after every later sequence of operations (within the bound). -/
theorem ids_unique_never_reused (ops : List Op)
    (hbound : (numCreates ops : Int) < maxInt) :
    IDInvariant (run NewMemoryStore ops) ∧
    (run NewMemoryStore ops).nextID = (numCreates ops : Int) + 1 ∧
    (∀ (t : String) (now : Time),
      ((Create (run NewMemoryStore ops) t now).1.deref
          (Create (run NewMemoryStore ops) t now).2).map (·.ID)
        = some (run NewMemoryStore ops).nextID ∧
      (run NewMemoryStore ops).todos.lookup (run NewMemoryStore ops).nextID = none ∧
      some (run NewMemoryStore ops).nextID ∉ createdIDs NewMemoryStore ops ∧
      ∀ (k : Int) (p : Ptr), (run NewMemoryStore ops).todos.lookup k = some p →
        (Create (run NewMemoryStore ops) t now).1.todos.lookup k = some p ∧
        (Create (run NewMemoryStore ops) t now).1.deref p
          = (run NewMemoryStore ops).deref p) ∧
    (∀ (ops1 ops2 : List Op) (id : Int), ops = ops1 ++ Op.Delete id :: ops2 →
      (Delete (run NewMemoryStore ops1) id).2 = none →
      (GetByID (run NewMemoryStore ops) id).2 = .error GoError.ErrNotFound) := by
  have hrun := IDInvariant_run ops NewMemoryStore IDInvariant_NewMemoryStore
    (by show (1 : Int) + _ ≤ _; omega)
  have hnext : (run NewMemoryStore ops).nextID = (numCreates ops : Int) + 1 := by
    rw [hrun.2]; show (1 : Int) + _ = _; ring
  have hmin : minInt ≤ 0 := by unfold minInt intSize; norm_num
  refine ⟨hrun.1, hnext, ?_, ?_⟩
  · intro t now
    have habs : (run NewMemoryStore ops).todos.lookup (run NewMemoryStore ops).nextID
        = none := by
      cases hl : (run NewMemoryStore ops).todos.lookup (run NewMemoryStore ops).nextID with
      | none => rfl
      | some p => exact absurd (hrun.1.2 _ p hl).2.1 (lt_irrefl _)
    refine ⟨by rw [Create_deref]; rfl, habs, ?_, ?_⟩
    · intro hmem
      obtain ⟨i, hi⟩ := List.mem_iff_getElem?.mp hmem
      have hlen : i < (createdIDs NewMemoryStore ops).length := by
        by_contra hc
        rw [List.getElem?_eq_none (Nat.le_of_not_lt hc)] at hi
        cases hi
      rw [createdIDs_length] at hlen
      rw [createdIDs_getElem ops NewMemoryStore i wrapInt_NewMemoryStore hlen] at hi
      have hw : wrapInt (NewMemoryStore.nextID + (i : Int)) = 1 + (i : Int) :=
        wrapInt_of_inRange _ (by omega) (by omega)
      rw [hw, hnext] at hi
      have := Option.some.inj (Option.some.inj hi)
      omega
    · intro k p hk
      obtain ⟨_, hlt, x, hx, _⟩ := hrun.1.2 k p hk
      have hne : k ≠ (run NewMemoryStore ops).nextID := ne_of_lt hlt
      refine ⟨by simpa [Create, AList.lookup_insert_ne hne] using hk, ?_⟩
      rw [hx]
      exact deref_append_of_deref _ hx
  · intro ops1 ops2 id hops hdel
    have hc : numCreates ops = numCreates ops1 + numCreates ops2 := by
      rw [hops, numCreates_append, numCreates_cons_other _ _ (by intro t n; simp)]
    have hrun1 := IDInvariant_run ops1 NewMemoryStore IDInvariant_NewMemoryStore
      (by show (1 : Int) + _ ≤ _; omega)
    have hnext1 : (run NewMemoryStore ops1).nextID = (numCreates ops1 : Int) + 1 := by
      rw [hrun1.2]; show (1 : Int) + _ = _; ring
    cases hl : (run NewMemoryStore ops1).todos.lookup id with
    | none => rw [Delete_of_lookup_none hl] at hdel; cases hdel
    | some p =>
      obtain ⟨hid1, hidlt, _⟩ := hrun1.1.2 id p hl
      have hrunEq : run NewMemoryStore ops
          = run (Delete (run NewMemoryStore ops1) id).1 ops2 := by
        rw [hops, run_append, run_cons]; rfl
      have habs := absent_stays_absent ops2 (Delete (run NewMemoryStore ops1) id).1 id
        (by rw [Delete_of_lookup hl]; exact AList.lookup_erase id _)
        (by rw [Delete_nextID]; exact hidlt)
        (by rw [Delete_nextID]; exact hrun1.1.1)
        (by rw [Delete_nextID, hnext1]; omega)
      rw [hrunEq, GetByID_of_lookup_none habs]

/-- Witness for C4: after creating items 1 and 2, deleting item 1 and creating
item 3, `GetByID(1)` still returns `ErrNotFound`. -/
theorem ids_unique_never_reused_witness :
    (Delete (run NewMemoryStore [Op.Create "a" 1, Op.Create "b" 2]) 1).2 = none ∧
    (GetByID (run NewMemoryStore
      [Op.Create "a" 1, Op.Create "b" 2, Op.Delete 1, Op.Create "c" 3]) 1).2
      = .error GoError.ErrNotFound :=
  ⟨by decide,
   (ids_unique_never_reused [Op.Create "a" 1, Op.Create "b" 2, Op.Delete 1, Op.Create "c" 3]
      (by decide)).2.2.2 [Op.Create "a" 1, Op.Create "b" 2] [Op.Create "c" 3] 1 rfl
      (by decide)⟩

/-! ## Parsing of identifiers -/

theorem parseDigits_eq_some_iff (ds : List Char) :
    ∀ acc v : Nat, parseDigits ds acc = some v ↔
      (∀ c ∈ ds, '0' ≤ c ∧ c ≤ '9') ∧
      v = acc * 10 ^ ds.length
            + Nat.ofDigits 10 (ds.reverse.map (fun c => c.toNat - 48)) := by
  induction ds with
  | nil =>
    intro acc v
    simp only [parseDigits, List.not_mem_nil, false_implies, implies_true, true_and,
      List.length_nil, pow_zero, mul_one, List.reverse_nil, List.map_nil, Nat.ofDigits_nil,
      add_zero, Option.some.injEq]
    exact eq_comm
  | cons c cs ih =>
    intro acc v
    by_cases hc : '0' ≤ c ∧ c ≤ '9'
    · have h48 : '0'.toNat = 48 := rfl
      rw [parseDigits, if_pos hc, ih, h48]
      simp only [List.mem_cons, forall_eq_or_imp, hc, true_and, List.reverse_cons,
        List.map_append, List.map_cons, List.map_nil, Nat.ofDigits_append,
        Nat.ofDigits_singleton, List.length_map, List.length_reverse, List.length_cons]
      constructor
      · rintro ⟨h1, h2⟩
        exact ⟨h1, by rw [h2]; ring⟩
      · rintro ⟨h1, h2⟩
        exact ⟨h1, by rw [h2]; ring⟩
    · rw [parseDigits, if_neg hc]
      constructor
      · intro h; cases h
      · rintro ⟨h, _⟩
        exact absurd (h c (List.mem_cons_self _ _)) hc

theorem digit_ne_sign {c : Char} (h : '0' ≤ c ∧ c ≤ '9') : c ≠ '+' ∧ c ≠ '-' := by
  constructor
  · rintro rfl; exact absurd h.1 (by decide)
  · rintro rfl; exact absurd h.1 (by decide)

theorem maxInt_eq : maxInt = 2 ^ 63 - 1 := by unfold maxInt intSize; norm_num

theorem minInt_eq : minInt = -(2 ^ 63) := by unfold minInt intSize; norm_num

theorem atoi_tail (digits : List Char) (neg : Bool) (n : Int) :
    (if digits.isEmpty = true then
        (Except.error (GoError.other "invalid syntax") : Except GoError Int)
      else
        match parseDigits digits 0 with
        | none => Except.error (GoError.other "invalid syntax")
        | some un =>
          if (!neg && decide (2 ^ (intSize - 1) ≤ un)) = true then
            Except.error (GoError.other "value out of range")
          else if (neg && decide (2 ^ (intSize - 1) < un)) = true then
            Except.error (GoError.other "value out of range")
          else Except.ok (if neg = true then -(un : Int) else (un : Int))) = Except.ok n ↔
    digits ≠ [] ∧ (∀ c ∈ digits, '0' ≤ c ∧ c ≤ '9') ∧
      ((neg = false ∧
          n = (Nat.ofDigits 10 (digits.reverse.map (fun c => c.toNat - 48)) : Nat) ∧
          n ≤ 2 ^ 63 - 1) ∨
       (neg = true ∧
          n = -((Nat.ofDigits 10 (digits.reverse.map (fun c => c.toNat - 48)) : Nat) : Int) ∧
          -(2 ^ 63) ≤ n)) := by
  by_cases hempty : digits = []
  · subst hempty
    simp
  · have hne : digits.isEmpty = false := by
      cases digits with
      | nil => exact absurd rfl hempty
      | cons _ _ => rfl
    rw [hne]
    simp only [Bool.false_eq_true, if_false]
    cases hp : parseDigits digits 0 with
    | none =>
      simp only []
      constructor
      · intro h; cases h
      · rintro ⟨_, hdig, _⟩
        have := (parseDigits_eq_some_iff digits 0 _).mpr ⟨hdig, rfl⟩
        rw [hp] at this
        cases this
    | some un =>
      obtain ⟨hdig, hv⟩ := (parseDigits_eq_some_iff digits 0 un).mp hp
      simp only [zero_mul, zero_add] at hv
      rw [← hv]
      have h63 : (2 : Nat) ^ (intSize - 1) = 2 ^ 63 := rfl
      rw [h63]
      cases neg with
      | false =>
        simp only [Bool.not_false, Bool.true_and, decide_eq_true_eq, Bool.false_and,
          Bool.false_eq_true, if_false]
        by_cases hr : 2 ^ 63 ≤ un
        · simp only [hr, if_true]
          constructor
          · intro h; cases h
          · rintro ⟨_, _, h⟩
            rcases h with ⟨_, h1, h2⟩ | ⟨h0, _⟩
            · omega
            · cases h0
        · simp only [hr, if_false]
          constructor
          · intro h
            have := Except.ok.inj h
            exact ⟨hempty, hdig, Or.inl ⟨trivial, this.symm, by omega⟩⟩
          · rintro ⟨_, _, h⟩
            rcases h with ⟨_, h1, _⟩ | ⟨h0, _⟩
            · rw [h1]
            · cases h0
      | true =>
        simp only [Bool.not_true, Bool.false_and, Bool.false_eq_true, if_false,
          Bool.true_and, decide_eq_true_eq, if_true]
        by_cases hr : 2 ^ 63 < un
        · simp only [hr, if_true]
          constructor
          · intro h; cases h
          · rintro ⟨_, _, h⟩
            rcases h with ⟨h0, _⟩ | ⟨_, h1, h2⟩
            · cases h0
            · omega
        · simp only [hr, if_false]
          constructor
          · intro h
            have := Except.ok.inj h
            exact ⟨hempty, hdig, Or.inr ⟨trivial, this.symm, by omega⟩⟩
          · rintro ⟨_, _, h⟩
            rcases h with ⟨h0, _⟩ | ⟨_, h1, _⟩
            · cases h0
            · rw [h1]

/-- `strconv.Atoi` succeeds with `n` exactly on the signed decimal numerals of
an `int`. -/
theorem Atoi_ok_iff (s : String) (n : Int) : Atoi s = .ok n ↔ SignedDecimal s.data n := by
  unfold Atoi SignedDecimal
  rw [maxInt_eq, minInt_eq]
  cases hd : s.data with
  | nil =>
    constructor
    · intro h; cases h
    · rintro ⟨digits, hne, _, h⟩
      rcases h with ⟨h | h, _⟩ | ⟨h, _⟩
      · exact absurd h.symm hne
      · cases h
      · cases h
  | cons c cs =>
    simp only []
    rw [atoi_tail]
    by_cases hplus : c = '+'
    · subst hplus
      simp only [show (('+' : Char) == '-') = false from rfl,
        show (('+' : Char) == '+') = true from rfl, Bool.or_false, if_true]
      constructor
      · rintro ⟨hne, hdig, h⟩
        rcases h with ⟨_, h1, h2⟩ | ⟨h0, _⟩
        · exact ⟨cs, hne, hdig, Or.inl ⟨Or.inr rfl, h1, h2⟩⟩
        · cases h0
      · rintro ⟨digits, hne, hdig, h⟩
        rcases h with ⟨h | h, h1, h2⟩ | ⟨h, _⟩
        · subst h
          exact absurd rfl (digit_ne_sign (hdig _ (List.mem_cons_self _ _))).1
        · cases h
          exact ⟨hne, hdig, Or.inl ⟨trivial, h1, h2⟩⟩
        · cases h
    · by_cases hminus : c = '-'
      · subst hminus
        simp only [show (('-' : Char) == '-') = true from rfl, Bool.or_true, if_true]
        constructor
        · rintro ⟨hne, hdig, h⟩
          rcases h with ⟨h0, _⟩ | ⟨_, h1, h2⟩
          · cases h0
          · exact ⟨cs, hne, hdig, Or.inr ⟨rfl, h1, h2⟩⟩
        · rintro ⟨digits, hne, hdig, h⟩
          rcases h with ⟨h | h, _⟩ | ⟨h, h1, h2⟩
          · subst h
            exact absurd rfl (digit_ne_sign (hdig _ (List.mem_cons_self _ _))).2
          · cases h
          · cases h
            exact ⟨hne, hdig, Or.inr ⟨trivial, h1, h2⟩⟩
      · have e1 : (c == '+') = false := by simpa using hplus
        have e2 : (c == '-') = false := by simpa using hminus
        simp only [e1, e2, Bool.or_false, Bool.false_eq_true, if_false]
        constructor
        · rintro ⟨hne, hdig, h⟩
          rcases h with ⟨_, h1, h2⟩ | ⟨h0, _⟩
          · exact ⟨c :: cs, hne, hdig, Or.inl ⟨Or.inl rfl, h1, h2⟩⟩
          · cases h0
        · rintro ⟨digits, hne, hdig, h⟩
          rcases h with ⟨h | h, h1, h2⟩ | ⟨h, _⟩
          · subst h
            exact ⟨hne, hdig, Or.inl ⟨trivial, h1, h2⟩⟩
          · cases h; exact absurd rfl hplus
          · cases h; exact absurd rfl hminus

theorem parseID_ok_iff (path : String) (n : Int) :
    parseID path = .ok n ↔ SignedDecimal (TrimPrefix path "/").data n :=
  Atoi_ok_iff _ n

theorem ServeHTTP_parse_error (s : MemoryStore) (env : Env) (r : Request) (e : GoError)
    (hm : r.Method = "GET" ∨ r.Method = "PUT" ∨ r.Method = "DELETE")
    (hne : TrimPrefix r.Path "/todos" ≠ "")
    (hp : parseID (TrimPrefix r.Path "/todos") = .error e) :
    (ServeHTTP s env r).w.status = 400 ∧
    (ServeHTTP s env r).w.body = Payload.error "Invalid ID" ∧
    (ServeHTTP s env r).w.Get "Content-Type" = some "application/json" ∧
    (ServeHTTP s env r).calls = [] ∧
    (ServeHTTP s env r).store = s := by
  rcases hm with hm | hm | hm
  · simp [ServeHTTP, hm, hne, handleGetByID, hp, respondError, respondJSON,
      ResponseWriter.WriteHeader, ResponseWriter.Set, ResponseWriter.Get]
  · simp [ServeHTTP, hm, hne, handleUpdate, hp, respondError, respondJSON,
      ResponseWriter.WriteHeader, ResponseWriter.Set, ResponseWriter.Get]
  · simp [ServeHTTP, hm, hne, handleDelete, hp, respondError, respondJSON,
      ResponseWriter.WriteHeader, ResponseWriter.Set, ResponseWriter.Get]

theorem ServeHTTP_get_parsed (s : MemoryStore) (env : Env) (r : Request) (n : Int)
    (hm : r.Method = "GET") (hne : TrimPrefix r.Path "/todos" ≠ "")
    (hp : parseID (TrimPrefix r.Path "/todos") = .ok n) :
    (ServeHTTP s env r).calls = [Op.GetByID n] := by
  simp only [ServeHTTP, hm, hne, handleGetByID, hp]
  cases hl : s.todos.lookup n with
  | none => simp [GetByID_of_lookup_none hl, hne]
  | some q => simp [GetByID_of_lookup hl, hne]

theorem ServeHTTP_delete_parsed (s : MemoryStore) (env : Env) (r : Request) (n : Int)
    (hm : r.Method = "DELETE") (hne : TrimPrefix r.Path "/todos" ≠ "")
    (hp : parseID (TrimPrefix r.Path "/todos") = .ok n) :
    (ServeHTTP s env r).calls = [Op.Delete n] := by
  simp only [ServeHTTP, hm, hne, handleDelete, hp]
  cases hl : s.todos.lookup n with
  | none => simp [Delete_of_lookup_none hl, hne]
  | some q => simp [Delete_of_lookup hl, hne]

/-- C10 (as stated, refuted): the remainders made of a slash followed by
`-1`, by `+1` or by `0`, and the remainder `5` (no leading slash), are parsed
successfully, and a GET of item `-1` on a fresh store calls `GetByID(-1)` and
answers 404 "Todo not found", not 400 "Invalid ID". -/
theorem non_positive_id_is_parsed :
    parseID "/-1" = .ok (-1) ∧ parseID "/+1" = .ok 1 ∧ parseID "/0" = .ok 0 ∧
    parseID "5" = .ok 5 ∧
    (ServeHTTP NewMemoryStore
        { now := 0, order := [], decodeCreate := fun _ => none, decodeUpdate := fun _ => none }
        { Method := "GET", Path := "/todos/-1", Body := "" }).w.status = 404 ∧
    (ServeHTTP NewMemoryStore
        { now := 0, order := [], decodeCreate := fun _ => none, decodeUpdate := fun _ => none }
        { Method := "GET", Path := "/todos/-1", Body := "" }).w.body
      = Payload.error "Todo not found" ∧
    (ServeHTTP NewMemoryStore
        { now := 0, order := [], decodeCreate := fun _ => none, decodeUpdate := fun _ => none }
        { Method := "GET", Path := "/todos/-1", Body := "" }).calls = [Op.GetByID (-1)] :=
  ⟨rfl, rfl, rfl, rfl, by decide, by decide, by decide⟩

/-- C10 (amended): for every GET, PUT or DELETE request whose remainder after
stripping the `/todos` prefix is non-empty, id parsing succeeds with `n`
exactly when the remainder, with one leading `/` removed if there is one, is
an optional sign `+` or `-` followed by a non-empty sequence of decimal digits
denoting `n`, and `n` lies in the range of `int`; for every other remainder
the dispatcher responds 400 with the JSON error "Invalid ID", calls no store
method and leaves the store as it is; and a GET or DELETE whose id parses
calls the store with that id. -/
theorem invalid_id_is_rejected (s : MemoryStore) (env : Env) (r : Request)
    (hm : r.Method = "GET" ∨ r.Method = "PUT" ∨ r.Method = "DELETE")
    (hne : TrimPrefix r.Path "/todos" ≠ "") :
    (∀ n : Int, parseID (TrimPrefix r.Path "/todos") = .ok n ↔
      SignedDecimal (TrimPrefix (TrimPrefix r.Path "/todos") "/").data n) ∧
    ((∀ n : Int, ¬ SignedDecimal (TrimPrefix (TrimPrefix r.Path "/todos") "/").data n) →
      (ServeHTTP s env r).w.status = 400 ∧
      (ServeHTTP s env r).w.body = Payload.error "Invalid ID" ∧
      (ServeHTTP s env r).w.Get "Content-Type" = some "application/json" ∧
      (ServeHTTP s env r).calls = [] ∧
      (ServeHTTP s env r).store = s) ∧
    (∀ n : Int, SignedDecimal (TrimPrefix (TrimPrefix r.Path "/todos") "/").data n →
      (r.Method = "GET" → (ServeHTTP s env r).calls = [Op.GetByID n]) ∧
      (r.Method = "DELETE" → (ServeHTTP s env r).calls = [Op.Delete n])) := by
  refine ⟨fun n => parseID_ok_iff _ n, ?_, ?_⟩
  · intro hno
    cases hp : parseID (TrimPrefix r.Path "/todos") with
    | ok n => exact absurd ((parseID_ok_iff _ n).mp hp) (hno n)
    | error e => exact ServeHTTP_parse_error s env r e hm hne hp
  · intro n hn
    have hp := (parseID_ok_iff _ n).mpr hn
    exact ⟨fun hg => ServeHTTP_get_parsed s env r n hg hne hp,
           fun hd => ServeHTTP_delete_parsed s env r n hd hne hp⟩

theorem parseID_abc : ∀ n : Int, parseID "/abc" ≠ .ok n := by
  intro n h
  have e : parseID "/abc" = .error (GoError.other "invalid syntax") := rfl
  rw [e] at h
  cases h

/-- Witness for C10: `GET /todos/abc` is answered 400 "Invalid ID" without a
store call. -/
theorem invalid_id_is_rejected_witness :
    (ServeHTTP NewMemoryStore
        { now := 0, order := [], decodeCreate := fun _ => none, decodeUpdate := fun _ => none }
        { Method := "GET", Path := "/todos/abc", Body := "" }).w.status = 400 ∧
    (ServeHTTP NewMemoryStore
        { now := 0, order := [], decodeCreate := fun _ => none, decodeUpdate := fun _ => none }
        { Method := "GET", Path := "/todos/abc", Body := "" }).w.body
      = Payload.error "Invalid ID" ∧
    (ServeHTTP NewMemoryStore
        { now := 0, order := [], decodeCreate := fun _ => none, decodeUpdate := fun _ => none }
        { Method := "GET", Path := "/todos/abc", Body := "" }).calls = [] :=
  have h := invalid_id_is_rejected NewMemoryStore
    { now := 0, order := [], decodeCreate := fun _ => none, decodeUpdate := fun _ => none }
    { Method := "GET", Path := "/todos/abc", Body := "" } (Or.inl rfl) (by decide)
  have hno := h.2.1 (fun n hn => parseID_abc n ((h.1 n).mpr hn))
  ⟨hno.1, hno.2.1, hno.2.2.2.1⟩

/-! ## Routing -/

theorem ServeHTTP_of_not_options (s : MemoryStore) (env : Env) (r : Request)
    (hopt : r.Method ≠ "OPTIONS") :
    ServeHTTP s env r =
      (let w := ((ResponseWriter.new.Set "Access-Control-Allow-Origin" "*").Set
          "Access-Control-Allow-Methods" "GET, POST, PUT, DELETE, OPTIONS").Set
          "Access-Control-Allow-Headers" "Content-Type"
       let path := TrimPrefix r.Path "/todos"
       if r.Method = "GET" ∧ path = "" then handleGetAll s env w
       else if r.Method = "GET" ∧ path ≠ "" then handleGetByID s w path
       else if r.Method = "POST" ∧ path = "" then handleCreate s env w r
       else if r.Method = "PUT" ∧ path ≠ "" then handleUpdate s env w r path
       else if r.Method = "DELETE" ∧ path ≠ "" then handleDelete s w path
       else { store := s, w := NotFound w, calls := [] }) := by
  unfold ServeHTTP
  simp only [hopt, if_false]

/-- C11: for every request whose method is not OPTIONS, if the pair (method,
remainder is empty) is none of (GET, empty), (GET, non-empty), (POST, empty),
(PUT, non-empty), (DELETE, non-empty), the dispatcher responds with status 404
(the plain-text "404 page not found" of `http.NotFound`), calls no store
method and leaves the store as it is. -/
theorem unrouted_is_404 (s : MemoryStore) (env : Env) (r : Request)
    (hopt : r.Method ≠ "OPTIONS")
    (h1 : ¬ (r.Method = "GET" ∧ TrimPrefix r.Path "/todos" = ""))
    (h2 : ¬ (r.Method = "GET" ∧ TrimPrefix r.Path "/todos" ≠ ""))
    (h3 : ¬ (r.Method = "POST" ∧ TrimPrefix r.Path "/todos" = ""))
    (h4 : ¬ (r.Method = "PUT" ∧ TrimPrefix r.Path "/todos" ≠ ""))
    (h5 : ¬ (r.Method = "DELETE" ∧ TrimPrefix r.Path "/todos" ≠ "")) :
    (ServeHTTP s env r).w.status = 404 ∧
    (ServeHTTP s env r).w.body = Payload.text "404 page not found\n" ∧
    (ServeHTTP s env r).calls = [] ∧
    (ServeHTTP s env r).store = s := by
  rw [ServeHTTP_of_not_options s env r hopt]
  simp [h1, h2, h3, h4, h5, NotFound, ResponseWriter.WriteHeader]

/-- Witness for C11: `POST /todos/1` on a fresh store is answered 404 without
a store call. -/
theorem unrouted_is_404_witness :
    (ServeHTTP NewMemoryStore
        { now := 0, order := [], decodeCreate := fun _ => some "a",
          decodeUpdate := fun _ => none }
        { Method := "POST", Path := "/todos/1", Body := "" }).w.status = 404 ∧
    (ServeHTTP NewMemoryStore
        { now := 0, order := [], decodeCreate := fun _ => some "a",
          decodeUpdate := fun _ => none }
        { Method := "POST", Path := "/todos/1", Body := "" }).calls = [] :=
  have h := unrouted_is_404 NewMemoryStore
    { now := 0, order := [], decodeCreate := fun _ => some "a", decodeUpdate := fun _ => none }
    { Method := "POST", Path := "/todos/1", Body := "" }
    (by decide) (by decide) (by decide) (by decide) (by decide) (by decide)
  ⟨h.1, h.2.2.1⟩

/-! ## The handlers, branch by branch -/

theorem handleGetByID_parse_error (s : MemoryStore) (w : ResponseWriter) (path : String)
    (e : GoError) (hp : parseID path = .error e) :
    handleGetByID s w path
      = { store := s, w := respondError w 400 "Invalid ID", calls := [] } := by
  simp only [handleGetByID, hp]

theorem handleGetByID_found (s : MemoryStore) (w : ResponseWriter) (path : String)
    (id : Int) (p : Ptr) (hp : parseID path = .ok id) (hl : s.todos.lookup id = some p) :
    handleGetByID s w path
      = { store := s, w := respondJSON w 200 (Payload.todo (s.deref p)),
          calls := [Op.GetByID id] } := by
  simp only [handleGetByID, hp, GetByID_of_lookup hl]

theorem handleGetByID_absent (s : MemoryStore) (w : ResponseWriter) (path : String)
    (id : Int) (hp : parseID path = .ok id) (hl : s.todos.lookup id = none) :
    handleGetByID s w path
      = { store := s, w := respondError w 404 "Todo not found",
          calls := [Op.GetByID id] } := by
  simp only [handleGetByID, hp, GetByID_of_lookup_none hl, if_true]

theorem handleCreate_decode_error (s : MemoryStore) (env : Env) (w : ResponseWriter)
    (r : Request) (hd : env.decodeCreate r.Body = none) :
    handleCreate s env w r
      = { store := s, w := respondError w 400 "Invalid request body", calls := [] } := by
  simp only [handleCreate, hd]

theorem handleCreate_empty_title (s : MemoryStore) (env : Env) (w : ResponseWriter)
    (r : Request) (hd : env.decodeCreate r.Body = some "") :
    handleCreate s env w r
      = { store := s, w := respondError w 400 "Title is required", calls := [] } := by
  simp only [handleCreate, hd, if_true]

theorem handleCreate_ok (s : MemoryStore) (env : Env) (w : ResponseWriter)
    (r : Request) (title : String) (hd : env.decodeCreate r.Body = some title)
    (ht : title ≠ "") :
    handleCreate s env w r
      = { store := (Create s title env.now).1,
          w := respondJSON w 201
            (Payload.todo ((Create s title env.now).1.deref (Create s title env.now).2)),
          calls := [Op.Create title env.now] } := by
  simp only [handleCreate, hd, ht, if_false]

theorem handleUpdate_parse_error (s : MemoryStore) (env : Env) (w : ResponseWriter)
    (r : Request) (path : String) (e : GoError) (hp : parseID path = .error e) :
    handleUpdate s env w r path
      = { store := s, w := respondError w 400 "Invalid ID", calls := [] } := by
  simp only [handleUpdate, hp]

theorem handleUpdate_decode_error (s : MemoryStore) (env : Env) (w : ResponseWriter)
    (r : Request) (path : String) (id : Int) (hp : parseID path = .ok id)
    (hd : env.decodeUpdate r.Body = none) :
    handleUpdate s env w r path
      = { store := s, w := respondError w 400 "Invalid request body", calls := [] } := by
  simp only [handleUpdate, hp, hd]

theorem handleUpdate_empty_title (s : MemoryStore) (env : Env) (w : ResponseWriter)
    (r : Request) (path : String) (id : Int) (completed : Bool)
    (hp : parseID path = .ok id) (hd : env.decodeUpdate r.Body = some ("", completed)) :
    handleUpdate s env w r path
      = { store := s, w := respondError w 400 "Title is required", calls := [] } := by
  simp only [handleUpdate, hp, hd, if_true]

theorem handleUpdate_found (s : MemoryStore) (env : Env) (w : ResponseWriter)
    (r : Request) (path : String) (id : Int) (title : String) (completed : Bool) (p : Ptr)
    (hp : parseID path = .ok id) (hd : env.decodeUpdate r.Body = some (title, completed))
    (ht : title ≠ "") (hl : s.todos.lookup id = some p) :
    handleUpdate s env w r path
      = { store := (Update s id title completed env.now).1,
          w := respondJSON w 200
            (Payload.todo ((Update s id title completed env.now).1.deref p)),
          calls := [Op.Update id title completed env.now] } := by
  simp only [handleUpdate, hp, hd, ht, if_false, Update_of_lookup title completed env.now hl]

theorem handleUpdate_absent (s : MemoryStore) (env : Env) (w : ResponseWriter)
    (r : Request) (path : String) (id : Int) (title : String) (completed : Bool)
    (hp : parseID path = .ok id) (hd : env.decodeUpdate r.Body = some (title, completed))
    (ht : title ≠ "") (hl : s.todos.lookup id = none) :
    handleUpdate s env w r path
      = { store := s, w := respondError w 404 "Todo not found",
          calls := [Op.Update id title completed env.now] } := by
  simp only [handleUpdate, hp, hd, ht, if_false,
    Update_of_lookup_none title completed env.now hl, if_true]

theorem handleDelete_parse_error (s : MemoryStore) (w : ResponseWriter) (path : String)
    (e : GoError) (hp : parseID path = .error e) :
    handleDelete s w path
      = { store := s, w := respondError w 400 "Invalid ID", calls := [] } := by
  simp only [handleDelete, hp]

theorem handleDelete_found (s : MemoryStore) (w : ResponseWriter) (path : String)
    (id : Int) (p : Ptr) (hp : parseID path = .ok id) (hl : s.todos.lookup id = some p) :
    handleDelete s w path
      = { store := (Delete s id).1, w := w.WriteHeader 204, calls := [Op.Delete id] } := by
  simp only [handleDelete, hp, Delete_of_lookup hl]

theorem handleDelete_absent (s : MemoryStore) (w : ResponseWriter) (path : String)
    (id : Int) (hp : parseID path = .ok id) (hl : s.todos.lookup id = none) :
    handleDelete s w path
      = { store := s, w := respondError w 404 "Todo not found",
          calls := [Op.Delete id] } := by
  simp only [handleDelete, hp, Delete_of_lookup_none hl, if_true]

/-- The routing of `ServeHTTP`: which handler a request reaches, with the
response writer that carries the CORS headers. -/
theorem ServeHTTP_route (s : MemoryStore) (env : Env) (r : Request) :
    (r.Method = "OPTIONS" ∧
      ServeHTTP s env r = { store := s, w := corsWriter.WriteHeader 200, calls := [] }) ∨
    (r.Method = "GET" ∧ TrimPrefix r.Path "/todos" = "" ∧
      ServeHTTP s env r = handleGetAll s env corsWriter) ∨
    (r.Method = "GET" ∧ TrimPrefix r.Path "/todos" ≠ "" ∧
      ServeHTTP s env r = handleGetByID s corsWriter (TrimPrefix r.Path "/todos")) ∨
    (r.Method = "POST" ∧ TrimPrefix r.Path "/todos" = "" ∧
      ServeHTTP s env r = handleCreate s env corsWriter r) ∨
    (r.Method = "PUT" ∧ TrimPrefix r.Path "/todos" ≠ "" ∧
      ServeHTTP s env r = handleUpdate s env corsWriter r (TrimPrefix r.Path "/todos")) ∨
    (r.Method = "DELETE" ∧ TrimPrefix r.Path "/todos" ≠ "" ∧
      ServeHTTP s env r = handleDelete s corsWriter (TrimPrefix r.Path "/todos")) ∨
    ((r.Method ≠ "OPTIONS" ∧
      ¬ (r.Method = "GET" ∧ TrimPrefix r.Path "/todos" = "") ∧
      ¬ (r.Method = "GET" ∧ TrimPrefix r.Path "/todos" ≠ "") ∧
      ¬ (r.Method = "POST" ∧ TrimPrefix r.Path "/todos" = "") ∧
      ¬ (r.Method = "PUT" ∧ TrimPrefix r.Path "/todos" ≠ "") ∧
      ¬ (r.Method = "DELETE" ∧ TrimPrefix r.Path "/todos" ≠ "")) ∧
      ServeHTTP s env r = { store := s, w := NotFound corsWriter, calls := [] }) := by
  by_cases hopt : r.Method = "OPTIONS"
  · refine Or.inl ⟨hopt, ?_⟩
    simp only [ServeHTTP, hopt, if_true, corsWriter]
  · rw [ServeHTTP_of_not_options s env r hopt]
    simp only []
    by_cases h1 : r.Method = "GET" ∧ TrimPrefix r.Path "/todos" = ""
    · exact Or.inr (Or.inl ⟨h1.1, h1.2, by rw [if_pos h1]; rfl⟩)
    · rw [if_neg h1]
      by_cases h2 : r.Method = "GET" ∧ TrimPrefix r.Path "/todos" ≠ ""
      · exact Or.inr (Or.inr (Or.inl ⟨h2.1, h2.2, by rw [if_pos h2]; rfl⟩))
      · rw [if_neg h2]
        by_cases h3 : r.Method = "POST" ∧ TrimPrefix r.Path "/todos" = ""
        · exact Or.inr (Or.inr (Or.inr (Or.inl ⟨h3.1, h3.2, by rw [if_pos h3]; rfl⟩)))
        · rw [if_neg h3]
          by_cases h4 : r.Method = "PUT" ∧ TrimPrefix r.Path "/todos" ≠ ""
          · exact Or.inr (Or.inr (Or.inr (Or.inr (Or.inl
              ⟨h4.1, h4.2, by rw [if_pos h4]; rfl⟩))))
          · rw [if_neg h4]
            by_cases h5 : r.Method = "DELETE" ∧ TrimPrefix r.Path "/todos" ≠ ""
            · exact Or.inr (Or.inr (Or.inr (Or.inr (Or.inr (Or.inl
                ⟨h5.1, h5.2, by rw [if_pos h5]; rfl⟩)))))
            · rw [if_neg h5]
              exact Or.inr (Or.inr (Or.inr (Or.inr (Or.inr (Or.inr
                ⟨⟨hopt, h1, h2, h3, h4, h5⟩, rfl⟩)))))

theorem run_single (s : MemoryStore) (op : Op) : run s [op] = step s op := rfl

theorem respondJSON_status (w : ResponseWriter) (status : Nat) (data : Payload) :
    (respondJSON w status data).status = status := rfl

theorem respondError_status (w : ResponseWriter) (status : Nat) (message : String) :
    (respondError w status message).status = status := rfl

/-- What one request does: the store afterwards is the store after the logged
store calls, and the calls and the status are one of the listed combinations. -/
theorem ServeHTTP_summary (s : MemoryStore) (env : Env) (r : Request) :
    (ServeHTTP s env r).store = run s (ServeHTTP s env r).calls ∧
    (((ServeHTTP s env r).calls = [] ∧
        ((ServeHTTP s env r).w.status = 200 ∨ (ServeHTTP s env r).w.status = 400 ∨
         (ServeHTTP s env r).w.status = 404)) ∨
     ((ServeHTTP s env r).calls = [Op.GetAll env.order] ∧
        (ServeHTTP s env r).w.status = 200) ∨
     (∃ id, (ServeHTTP s env r).calls = [Op.GetByID id] ∧
        ((ServeHTTP s env r).w.status = 200 ∧ s.todos.lookup id ≠ none ∨
         (ServeHTTP s env r).w.status = 404 ∧ s.todos.lookup id = none)) ∨
     (∃ t, t ≠ "" ∧ (ServeHTTP s env r).calls = [Op.Create t env.now] ∧
        (ServeHTTP s env r).w.status = 201) ∨
     (∃ id t c, t ≠ "" ∧ (ServeHTTP s env r).calls = [Op.Update id t c env.now] ∧
        ((ServeHTTP s env r).w.status = 200 ∧ s.todos.lookup id ≠ none ∨
         (ServeHTTP s env r).w.status = 404 ∧ s.todos.lookup id = none)) ∨
     (∃ id, (ServeHTTP s env r).calls = [Op.Delete id] ∧
        ((ServeHTTP s env r).w.status = 204 ∧ s.todos.lookup id ≠ none ∨
         (ServeHTTP s env r).w.status = 404 ∧ s.todos.lookup id = none))) := by
  rcases ServeHTTP_route s env r with ⟨_, h⟩ | ⟨_, _, h⟩ | ⟨_, _, h⟩ |
    ⟨_, _, h⟩ | ⟨_, _, h⟩ | ⟨_, _, h⟩ | ⟨_, h⟩
  · rw [h]
    exact ⟨rfl, Or.inl ⟨rfl, Or.inl rfl⟩⟩
  · rw [h]
    exact ⟨rfl, Or.inr (Or.inl ⟨rfl, rfl⟩)⟩
  · rw [h]
    cases hp : parseID (TrimPrefix r.Path "/todos") with
    | error e =>
      rw [handleGetByID_parse_error s _ _ e hp]
      exact ⟨rfl, Or.inl ⟨rfl, Or.inr (Or.inl rfl)⟩⟩
    | ok id =>
      cases hl : s.todos.lookup id with
      | none =>
        rw [handleGetByID_absent s _ _ id hp hl]
        refine ⟨?_, Or.inr (Or.inr (Or.inl ⟨id, rfl, Or.inr ⟨rfl, hl⟩⟩))⟩
        exact (GetByID_fst s id).symm
      | some p =>
        rw [handleGetByID_found s _ _ id p hp hl]
        refine ⟨?_, Or.inr (Or.inr (Or.inl ⟨id, rfl, Or.inl ⟨rfl, by rw [hl]; simp⟩⟩))⟩
        exact (GetByID_fst s id).symm
  · rw [h]
    cases hd : env.decodeCreate r.Body with
    | none =>
      rw [handleCreate_decode_error s env _ r hd]
      exact ⟨rfl, Or.inl ⟨rfl, Or.inr (Or.inl rfl)⟩⟩
    | some title =>
      by_cases ht : title = ""
      · subst ht
        rw [handleCreate_empty_title s env _ r hd]
        exact ⟨rfl, Or.inl ⟨rfl, Or.inr (Or.inl rfl)⟩⟩
      · rw [handleCreate_ok s env _ r title hd ht]
        exact ⟨rfl, Or.inr (Or.inr (Or.inr (Or.inl ⟨title, ht, rfl, rfl⟩)))⟩
  · rw [h]
    cases hp : parseID (TrimPrefix r.Path "/todos") with
    | error e =>
      rw [handleUpdate_parse_error s env _ r _ e hp]
      exact ⟨rfl, Or.inl ⟨rfl, Or.inr (Or.inl rfl)⟩⟩
    | ok id =>
      cases hd : env.decodeUpdate r.Body with
      | none =>
        rw [handleUpdate_decode_error s env _ r _ id hp hd]
        exact ⟨rfl, Or.inl ⟨rfl, Or.inr (Or.inl rfl)⟩⟩
      | some tc =>
        obtain ⟨title, completed⟩ := tc
        by_cases ht : title = ""
        · subst ht
          rw [handleUpdate_empty_title s env _ r _ id completed hp hd]
          exact ⟨rfl, Or.inl ⟨rfl, Or.inr (Or.inl rfl)⟩⟩
        · cases hl : s.todos.lookup id with
          | none =>
            rw [handleUpdate_absent s env _ r _ id title completed hp hd ht hl]
            refine ⟨?_, Or.inr (Or.inr (Or.inr (Or.inr (Or.inl
              ⟨id, title, completed, ht, rfl, Or.inr ⟨rfl, hl⟩⟩))))⟩
            show s = (Update s id title completed env.now).1
            rw [Update_of_lookup_none title completed env.now hl]
          | some p =>
            rw [handleUpdate_found s env _ r _ id title completed p hp hd ht hl]
            exact ⟨rfl, Or.inr (Or.inr (Or.inr (Or.inr (Or.inl
              ⟨id, title, completed, ht, rfl, Or.inl ⟨rfl, by rw [hl]; simp⟩⟩))))⟩
  · rw [h]
    cases hp : parseID (TrimPrefix r.Path "/todos") with
    | error e =>
      rw [handleDelete_parse_error s _ _ e hp]
      exact ⟨rfl, Or.inl ⟨rfl, Or.inr (Or.inl rfl)⟩⟩
    | ok id =>
      cases hl : s.todos.lookup id with
      | none =>
        rw [handleDelete_absent s _ _ id hp hl]
        refine ⟨?_, Or.inr (Or.inr (Or.inr (Or.inr (Or.inr
          ⟨id, rfl, Or.inr ⟨rfl, hl⟩⟩))))⟩
        show s = (Delete s id).1
        rw [Delete_of_lookup_none hl]
      | some p =>
        rw [handleDelete_found s _ _ id p hp hl]
        exact ⟨rfl, Or.inr (Or.inr (Or.inr (Or.inr (Or.inr
          ⟨id, rfl, Or.inl ⟨rfl, by rw [hl]; simp⟩⟩))))⟩
  · rw [h]
    exact ⟨rfl, Or.inl ⟨rfl, Or.inr (Or.inr rfl)⟩⟩

theorem ServeHTTP_GET_all (s : MemoryStore) (env : Env) (r : Request)
    (hm : r.Method = "GET") (hp : TrimPrefix r.Path "/todos" = "") :
    ServeHTTP s env r = handleGetAll s env corsWriter := by
  rw [ServeHTTP_of_not_options s env r (by rw [hm]; decide)]
  simp [hm, hp, corsWriter]

theorem ServeHTTP_GET_item (s : MemoryStore) (env : Env) (r : Request)
    (hm : r.Method = "GET") (hp : TrimPrefix r.Path "/todos" ≠ "") :
    ServeHTTP s env r = handleGetByID s corsWriter (TrimPrefix r.Path "/todos") := by
  rw [ServeHTTP_of_not_options s env r (by rw [hm]; decide)]
  simp [hm, hp, corsWriter]

theorem ServeHTTP_POST (s : MemoryStore) (env : Env) (r : Request)
    (hm : r.Method = "POST") (hp : TrimPrefix r.Path "/todos" = "") :
    ServeHTTP s env r = handleCreate s env corsWriter r := by
  rw [ServeHTTP_of_not_options s env r (by rw [hm]; decide)]
  simp [hm, hp, corsWriter]

theorem ServeHTTP_PUT (s : MemoryStore) (env : Env) (r : Request)
    (hm : r.Method = "PUT") (hp : TrimPrefix r.Path "/todos" ≠ "") :
    ServeHTTP s env r = handleUpdate s env corsWriter r (TrimPrefix r.Path "/todos") := by
  rw [ServeHTTP_of_not_options s env r (by rw [hm]; decide)]
  simp [hm, hp, corsWriter]

theorem ServeHTTP_DELETE (s : MemoryStore) (env : Env) (r : Request)
    (hm : r.Method = "DELETE") (hp : TrimPrefix r.Path "/todos" ≠ "") :
    ServeHTTP s env r = handleDelete s corsWriter (TrimPrefix r.Path "/todos") := by
  rw [ServeHTTP_of_not_options s env r (by rw [hm]; decide)]
  simp [hm, hp, corsWriter]

/-! ## Order of the checks of a PUT -/

/-- C18: for every PUT request with a non-empty remainder the checks run in the
order id parse, body decode, title non-empty, store lookup, and the first
failing check decides the response: an unparseable id gives 400 "Invalid ID"
whatever the body; a parseable id with an undecodable body gives 400 "Invalid
request body"; a parseable id and a decodable body with empty title give 400
"Title is required" whether or not the id is in the store; in these three
cases no store method is called. Only when all three pass is `Store.Update`
called, with 404 "Todo not found" if the id is absent and 200 if present. -/
theorem put_check_order (s : MemoryStore) (env : Env) (r : Request)
    (hm : r.Method = "PUT") (hne : TrimPrefix r.Path "/todos" ≠ "") :
    (∀ e, parseID (TrimPrefix r.Path "/todos") = .error e →
      (ServeHTTP s env r).w.status = 400 ∧
      (ServeHTTP s env r).w.body = Payload.error "Invalid ID" ∧
      (ServeHTTP s env r).calls = []) ∧
    (∀ id, parseID (TrimPrefix r.Path "/todos") = .ok id →
      env.decodeUpdate r.Body = none →
      (ServeHTTP s env r).w.status = 400 ∧
      (ServeHTTP s env r).w.body = Payload.error "Invalid request body" ∧
      (ServeHTTP s env r).calls = []) ∧
    (∀ id c, parseID (TrimPrefix r.Path "/todos") = .ok id →
      env.decodeUpdate r.Body = some ("", c) →
      (ServeHTTP s env r).w.status = 400 ∧
      (ServeHTTP s env r).w.body = Payload.error "Title is required" ∧
      (ServeHTTP s env r).calls = []) ∧
    (∀ id t c, parseID (TrimPrefix r.Path "/todos") = .ok id →
      env.decodeUpdate r.Body = some (t, c) → t ≠ "" →
      (ServeHTTP s env r).calls = [Op.Update id t c env.now] ∧
      (s.todos.lookup id = none →
        (ServeHTTP s env r).w.status = 404 ∧
        (ServeHTTP s env r).w.body = Payload.error "Todo not found") ∧
      (s.todos.lookup id ≠ none → (ServeHTTP s env r).w.status = 200)) := by
  rw [ServeHTTP_PUT s env r hm hne]
  refine ⟨?_, ?_, ?_, ?_⟩
  · intro e hp
    rw [handleUpdate_parse_error s env _ r _ e hp]
    exact ⟨rfl, rfl, rfl⟩
  · intro id hp hd
    rw [handleUpdate_decode_error s env _ r _ id hp hd]
    exact ⟨rfl, rfl, rfl⟩
  · intro id c hp hd
    rw [handleUpdate_empty_title s env _ r _ id c hp hd]
    exact ⟨rfl, rfl, rfl⟩
  · intro id t c hp hd ht
    cases hl : s.todos.lookup id with
    | none =>
      rw [handleUpdate_absent s env _ r _ id t c hp hd ht hl]
      exact ⟨rfl, fun _ => ⟨rfl, rfl⟩, fun h => absurd rfl h⟩
    | some p =>
      rw [handleUpdate_found s env _ r _ id t c p hp hd ht hl]
      exact ⟨rfl, fun h => Option.noConfusion h, fun _ => rfl⟩

/-- Witness for C18: a PUT for item 99 of a fresh store whose body decodes to
an empty title is answered 400 "Title is required" without a store call,
although the id is absent. -/
theorem put_check_order_witness :
    (ServeHTTP NewMemoryStore
        { now := 0, order := [], decodeCreate := fun _ => none,
          decodeUpdate := fun _ => some ("", true) }
        { Method := "PUT", Path := "/todos/99", Body := "" }).w.status = 400 ∧
    (ServeHTTP NewMemoryStore
        { now := 0, order := [], decodeCreate := fun _ => none,
          decodeUpdate := fun _ => some ("", true) }
        { Method := "PUT", Path := "/todos/99", Body := "" }).w.body
      = Payload.error "Title is required" ∧
    (ServeHTTP NewMemoryStore
        { now := 0, order := [], decodeCreate := fun _ => none,
          decodeUpdate := fun _ => some ("", true) }
        { Method := "PUT", Path := "/todos/99", Body := "" }).calls = [] :=
  (put_check_order NewMemoryStore
    { now := 0, order := [], decodeCreate := fun _ => none,
      decodeUpdate := fun _ => some ("", true) }
    { Method := "PUT", Path := "/todos/99", Body := "" } rfl (by decide)).2.2.1
    99 true rfl rfl

/-! ## Status codes follow the store outcome -/

/-- C12: for every request that passes id parsing and body validation the
status is determined by the store outcome: `GET /todos` gives 200 with the
items `GetAll` returned; `GET /todos/<id>` and `PUT /todos/<id>` give 200 with
the item when the store call succeeds; `POST /todos` gives 201 with the item
`Create` returned (on a fresh store: id 1, the posted title, completed false);
`DELETE /todos/<id>` gives 204 with an empty body when `Delete` succeeds; and
whenever the store returns `ErrNotFound` the response is 404 with the JSON
error "Todo not found". -/
theorem status_follows_store_outcome (s : MemoryStore) (env : Env) (r : Request) :
    (r.Method = "GET" → TrimPrefix r.Path "/todos" = "" →
      (ServeHTTP s env r).w.status = 200 ∧
      (ServeHTTP s env r).w.body
        = Payload.todos ((GetAll s env.order).2.map (List.map s.deref)) ∧
      (ServeHTTP s env r).store = s) ∧
    (r.Method = "GET" → TrimPrefix r.Path "/todos" ≠ "" →
      ∀ id, parseID (TrimPrefix r.Path "/todos") = .ok id →
        (∀ p, (GetByID s id).2 = .ok p →
          (ServeHTTP s env r).w.status = 200 ∧
          (ServeHTTP s env r).w.body = Payload.todo (s.deref p)) ∧
        ((GetByID s id).2 = .error GoError.ErrNotFound →
          (ServeHTTP s env r).w.status = 404 ∧
          (ServeHTTP s env r).w.body = Payload.error "Todo not found")) ∧
    (r.Method = "PUT" → TrimPrefix r.Path "/todos" ≠ "" →
      ∀ id t c, parseID (TrimPrefix r.Path "/todos") = .ok id →
        env.decodeUpdate r.Body = some (t, c) → t ≠ "" →
        (∀ p, (Update s id t c env.now).2 = .ok p →
          (ServeHTTP s env r).w.status = 200 ∧
          (ServeHTTP s env r).w.body
            = Payload.todo ((Update s id t c env.now).1.deref p) ∧
          (ServeHTTP s env r).store = (Update s id t c env.now).1) ∧
        ((Update s id t c env.now).2 = .error GoError.ErrNotFound →
          (ServeHTTP s env r).w.status = 404 ∧
          (ServeHTTP s env r).w.body = Payload.error "Todo not found")) ∧
    (r.Method = "POST" → TrimPrefix r.Path "/todos" = "" →
      ∀ t, env.decodeCreate r.Body = some t → t ≠ "" →
        (ServeHTTP s env r).w.status = 201 ∧
        (ServeHTTP s env r).w.body
          = Payload.todo ((Create s t env.now).1.deref (Create s t env.now).2) ∧
        (ServeHTTP s env r).store = (Create s t env.now).1 ∧
        (s = NewMemoryStore →
          (ServeHTTP s env r).w.body
            = Payload.todo (some { ID := 1, Title := t, Completed := false,
                                   CreatedAt := env.now, UpdatedAt := env.now }))) ∧
    (r.Method = "DELETE" → TrimPrefix r.Path "/todos" ≠ "" →
      ∀ id, parseID (TrimPrefix r.Path "/todos") = .ok id →
        ((Delete s id).2 = none →
          (ServeHTTP s env r).w.status = 204 ∧
          (ServeHTTP s env r).w.body = Payload.empty ∧
          (ServeHTTP s env r).store = (Delete s id).1) ∧
        ((Delete s id).2 = some GoError.ErrNotFound →
          (ServeHTTP s env r).w.status = 404 ∧
          (ServeHTTP s env r).w.body = Payload.error "Todo not found")) := by
  refine ⟨?_, ?_, ?_, ?_, ?_⟩
  · intro hm hp
    rw [ServeHTTP_GET_all s env r hm hp]
    exact ⟨rfl, rfl, rfl⟩
  · intro hm hne id hp
    rw [ServeHTTP_GET_item s env r hm hne]
    cases hl : s.todos.lookup id with
    | none =>
      rw [handleGetByID_absent s _ _ id hp hl, GetByID_of_lookup_none hl]
      exact ⟨(fun p h => by cases h), fun _ => ⟨rfl, rfl⟩⟩
    | some q =>
      rw [handleGetByID_found s _ _ id q hp hl, GetByID_of_lookup hl]
      refine ⟨fun p h => ?_, fun h => by cases h⟩
      cases h
      exact ⟨rfl, rfl⟩
  · intro hm hne id t c hp hd ht
    rw [ServeHTTP_PUT s env r hm hne]
    cases hl : s.todos.lookup id with
    | none =>
      rw [handleUpdate_absent s env _ r _ id t c hp hd ht hl,
        Update_of_lookup_none t c env.now hl]
      exact ⟨(fun p h => by cases h), fun _ => ⟨rfl, rfl⟩⟩
    | some q =>
      rw [handleUpdate_found s env _ r _ id t c q hp hd ht hl]
      refine ⟨fun p h => ?_, fun h => ?_⟩
      · rw [Update_of_lookup t c env.now hl] at h
        cases h
        exact ⟨rfl, rfl, rfl⟩
      · rw [Update_of_lookup t c env.now hl] at h
        cases h
  · intro hm hp t hd ht
    rw [ServeHTTP_POST s env r hm hp, handleCreate_ok s env _ r t hd ht]
    refine ⟨rfl, rfl, rfl, ?_⟩
    intro hs
    subst hs
    show Payload.todo _ = _
    rw [Create_deref]
    rfl
  · intro hm hne id hp
    rw [ServeHTTP_DELETE s env r hm hne]
    cases hl : s.todos.lookup id with
    | none =>
      rw [handleDelete_absent s _ _ id hp hl, Delete_of_lookup_none hl]
      exact ⟨(fun h => by cases h), fun _ => ⟨rfl, rfl⟩⟩
    | some q =>
      rw [handleDelete_found s _ _ id q hp hl, Delete_of_lookup hl]
      exact ⟨fun _ => ⟨rfl, rfl, rfl⟩, fun h => by cases h⟩

/-- Witness for C12: `POST /todos` with title "Buy milk" on a fresh store is
answered 201 with item 1, not completed. -/
theorem status_follows_store_outcome_witness :
    (ServeHTTP NewMemoryStore
        { now := 7, order := [], decodeCreate := fun _ => some "Buy milk",
          decodeUpdate := fun _ => none }
        { Method := "POST", Path := "/todos", Body := "" }).w.status = 201 ∧
    (ServeHTTP NewMemoryStore
        { now := 7, order := [], decodeCreate := fun _ => some "Buy milk",
          decodeUpdate := fun _ => none }
        { Method := "POST", Path := "/todos", Body := "" }).w.body
      = Payload.todo (some { ID := 1, Title := "Buy milk", Completed := false,
                             CreatedAt := 7, UpdatedAt := 7 }) :=
  have h := (status_follows_store_outcome NewMemoryStore
    { now := 7, order := [], decodeCreate := fun _ => some "Buy milk",
      decodeUpdate := fun _ => none }
    { Method := "POST", Path := "/todos", Body := "" }).2.2.2.1 rfl (by decide)
    "Buy milk" rfl (by decide)
  ⟨h.1, h.2.2.2 rfl⟩

/-! ## Errors of the store and statuses of the dispatcher -/

/-- C20: the "Internal server error" branches are unreachable: for every store
state the only error `GetByID`, `Update` or `Delete` can return is
`ErrNotFound`, so (response encoding being taken to succeed) `ServeHTTP` never
responds with status 500, and every response status is one of 200, 201, 204,
400 or 404. -/
theorem no_internal_server_error (s : MemoryStore) (env : Env) (r : Request) :
    (∀ id e, (GetByID s id).2 = .error e → e = GoError.ErrNotFound) ∧
    (∀ id t c now e, (Update s id t c now).2 = .error e → e = GoError.ErrNotFound) ∧
    (∀ id e, (Delete s id).2 = some e → e = GoError.ErrNotFound) ∧
    (ServeHTTP s env r).w.status ≠ 500 ∧
    ((ServeHTTP s env r).w.status = 200 ∨ (ServeHTTP s env r).w.status = 201 ∨
     (ServeHTTP s env r).w.status = 204 ∨ (ServeHTTP s env r).w.status = 400 ∨
     (ServeHTTP s env r).w.status = 404) := by
  have hstatus : (ServeHTTP s env r).w.status = 200 ∨ (ServeHTTP s env r).w.status = 201 ∨
      (ServeHTTP s env r).w.status = 204 ∨ (ServeHTTP s env r).w.status = 400 ∨
      (ServeHTTP s env r).w.status = 404 := by
    rcases (ServeHTTP_summary s env r).2 with ⟨_, h | h | h⟩ | ⟨_, h⟩ |
      ⟨_, _, ⟨h, _⟩ | ⟨h, _⟩⟩ | ⟨_, _, _, h⟩ | ⟨_, _, _, _, _, ⟨h, _⟩ | ⟨h, _⟩⟩ |
      ⟨_, _, ⟨h, _⟩ | ⟨h, _⟩⟩ <;> simp [h]
  refine ⟨?_, ?_, ?_, ?_, hstatus⟩
  · intro id e h
    cases hl : s.todos.lookup id with
    | none => rw [GetByID_of_lookup_none hl] at h; cases h; rfl
    | some p => rw [GetByID_of_lookup hl] at h; cases h
  · intro id t c now e h
    cases hl : s.todos.lookup id with
    | none => rw [Update_of_lookup_none t c now hl] at h; cases h; rfl
    | some p => rw [Update_of_lookup t c now hl] at h; cases h
  · intro id e h
    cases hl : s.todos.lookup id with
    | none => rw [Delete_of_lookup_none hl] at h; cases h; rfl
    | some p => rw [Delete_of_lookup hl] at h; cases h
  · intro h500
    rw [h500] at hstatus
    simp at hstatus

/-- Witness for C20: the error `Delete` returns for id 5 on a fresh store is
`ErrNotFound`. -/
theorem no_internal_server_error_witness :
    ∃ e, (Delete NewMemoryStore 5).2 = some e ∧ e = GoError.ErrNotFound :=
  ⟨GoError.ErrNotFound, rfl,
   (no_internal_server_error NewMemoryStore
      { now := 0, order := [], decodeCreate := fun _ => none, decodeUpdate := fun _ => none }
      { Method := "GET", Path := "/todos", Body := "" }).2.2.1 5 GoError.ErrNotFound rfl⟩

/-! ## Failed requests leave the store alone -/

/-- C13: for every store state and every request, if the response status is
400 or 404 (malformed id, undecodable body, empty title, unrouted method or
path, id absent from the store), the store after the request equals the store
before it (heap, collection and `nextID`); in particular a PUT for item 1
whose body decodes to title "" and completed true is answered 400 "Title is
required" and leaves the store, item 1 included, unchanged. -/
theorem failed_request_keeps_store (s : MemoryStore) (env : Env) (r : Request) :
    ((ServeHTTP s env r).w.status = 400 ∨ (ServeHTTP s env r).w.status = 404 →
      (ServeHTTP s env r).store = s) ∧
    (r.Method = "PUT" → r.Path = "/todos/1" → env.decodeUpdate r.Body = some ("", true) →
      (ServeHTTP s env r).w.status = 400 ∧
      (ServeHTTP s env r).w.body = Payload.error "Title is required" ∧
      (ServeHTTP s env r).store = s) := by
  constructor
  · intro hst
    obtain ⟨hstore, hc⟩ := ServeHTTP_summary s env r
    rw [hstore]
    rcases hc with ⟨hcalls, _⟩ | ⟨hcalls, h⟩ | ⟨id, hcalls, _⟩ | ⟨t, _, hcalls, h⟩ |
      ⟨id, t, c, _, hcalls, h⟩ | ⟨id, hcalls, h⟩
    · rw [hcalls]; rfl
    · rw [hcalls]; rfl
    · rw [hcalls]; exact GetByID_fst s id
    · rw [h] at hst; simp at hst
    · rw [hcalls, run_single]
      rcases h with ⟨h, _⟩ | ⟨_, hl⟩
      · rw [h] at hst; simp at hst
      · show (Update s id t c env.now).1 = s
        rw [Update_of_lookup_none t c env.now hl]
    · rw [hcalls, run_single]
      rcases h with ⟨h, _⟩ | ⟨_, hl⟩
      · rw [h] at hst; simp at hst
      · show (Delete s id).1 = s
        rw [Delete_of_lookup_none hl]
  · intro hm hpath hd
    have hne : TrimPrefix r.Path "/todos" ≠ "" := by rw [hpath]; decide
    have hp : parseID (TrimPrefix r.Path "/todos") = .ok 1 := by rw [hpath]; rfl
    rw [ServeHTTP_PUT s env r hm hne, handleUpdate_empty_title s env _ r _ 1 true hp hd]
    exact ⟨rfl, rfl, rfl⟩

/-- Witness for C13: a PUT for item 1 with an empty title against a store that
holds item 1 is answered 400 and the store is as before. -/
theorem failed_request_keeps_store_witness :
    (ServeHTTP (Create NewMemoryStore "a" 1).1
        { now := 2, order := [], decodeCreate := fun _ => none,
          decodeUpdate := fun _ => some ("", true) }
        { Method := "PUT", Path := "/todos/1", Body := "" }).w.status = 400 ∧
    (ServeHTTP (Create NewMemoryStore "a" 1).1
        { now := 2, order := [], decodeCreate := fun _ => none,
          decodeUpdate := fun _ => some ("", true) }
        { Method := "PUT", Path := "/todos/1", Body := "" }).store
      = (Create NewMemoryStore "a" 1).1 :=
  have h := failed_request_keeps_store (Create NewMemoryStore "a" 1).1
    { now := 2, order := [], decodeCreate := fun _ => none,
      decodeUpdate := fun _ => some ("", true) }
    { Method := "PUT", Path := "/todos/1", Body := "" }
  ⟨(h.2 rfl rfl rfl).1, h.1 (Or.inl (h.2 rfl rfl rfl).1)⟩

/-! ## Titles -/

theorem TitlesNonEmpty_create (s : MemoryStore) (t : String) (now : Time)
    (ht : t ≠ "") (h : TitlesNonEmpty s) : TitlesNonEmpty (Create s t now).1 := by
  intro k p hk
  by_cases hkn : k = s.nextID
  · subst hkn
    rw [Create_todos_lookup_self] at hk
    cases hk
    exact ⟨_, Create_deref s t now, ht⟩
  · have hk2 : s.todos.lookup k = some p := by
      simpa [Create, AList.lookup_insert_ne hkn] using hk
    obtain ⟨x, hx, hxt⟩ := h k p hk2
    exact ⟨x, deref_append_of_deref _ hx, hxt⟩

theorem TitlesNonEmpty_update (s : MemoryStore) (id : Int) (t : String) (c : Bool)
    (now : Time) (ht : t ≠ "") (h : TitlesNonEmpty s) :
    TitlesNonEmpty (Update s id t c now).1 := by
  cases hl : s.todos.lookup id with
  | none => rw [Update_of_lookup_none t c now hl]; exact h
  | some q =>
    rw [Update_of_lookup t c now hl]
    intro k p hk
    obtain ⟨x, hx, hxt⟩ := h k p hk
    unfold MemoryStore.deref at hx ⊢
    simp only [List.getElem?_modify, hx, Option.map_eq_map, Option.map_some']
    by_cases hqp : q = p
    · simp only [hqp, if_true]; exact ⟨_, rfl, ht⟩
    · simp only [hqp, if_false]; exact ⟨_, rfl, hxt⟩

theorem TitlesNonEmpty_delete (s : MemoryStore) (id : Int) (h : TitlesNonEmpty s) :
    TitlesNonEmpty (Delete s id).1 := by
  cases hl : s.todos.lookup id with
  | none => rw [Delete_of_lookup_none hl]; exact h
  | some q =>
    rw [Delete_of_lookup hl]
    intro k p hk
    by_cases hki : k = id
    · subst hki
      have : (s.todos.erase k).lookup k = none := AList.lookup_erase k s.todos
      simp only [this] at hk
      cases hk
    · have hk2 : s.todos.lookup k = some p := by
        simpa [AList.lookup_erase_ne hki] using hk
      exact h k p hk2

theorem TitlesNonEmpty_ServeHTTP (s : MemoryStore) (env : Env) (r : Request)
    (h : TitlesNonEmpty s) : TitlesNonEmpty (ServeHTTP s env r).store := by
  obtain ⟨hstore, hc⟩ := ServeHTTP_summary s env r
  rw [hstore]
  rcases hc with ⟨hcalls, _⟩ | ⟨hcalls, _⟩ | ⟨id, hcalls, _⟩ | ⟨t, ht, hcalls, _⟩ |
    ⟨id, t, c, ht, hcalls, _⟩ | ⟨id, hcalls, _⟩
  · rw [hcalls]; exact h
  · rw [hcalls]; exact h
  · rw [hcalls, run_single]
    show TitlesNonEmpty (GetByID s id).1
    rw [GetByID_fst]; exact h
  · rw [hcalls, run_single]; exact TitlesNonEmpty_create s t env.now ht h
  · rw [hcalls, run_single]; exact TitlesNonEmpty_update s id t c env.now ht h
  · rw [hcalls, run_single]; exact TitlesNonEmpty_delete s id h

theorem TitlesNonEmpty_serveAll (reqs : List (Env × Request)) :
    ∀ s : MemoryStore, TitlesNonEmpty s → TitlesNonEmpty (serveAll s reqs) := by
  induction reqs with
  | nil => intro s h; exact h
  | cons er reqs ih =>
    intro s h
    exact ih _ (TitlesNonEmpty_ServeHTTP s er.1 er.2 h)

/-- C14: in every store state reached from the empty store by any sequence of
requests handled by `TodoHandler.ServeHTTP`, every item of the collection
exists and has a non-empty `Title`; and whatever the store and the request, the
handler calls `Store.Create` and `Store.Update` only with a non-empty title. -/
theorem titles_never_empty (reqs : List (Env × Request)) :
    (∀ (k : Int) (p : Ptr), (serveAll NewMemoryStore reqs).todos.lookup k = some p →
      ∃ x : Todo, (serveAll NewMemoryStore reqs).deref p = some x ∧ x.Title ≠ "") ∧
    (∀ (s : MemoryStore) (env : Env) (r : Request),
      ∀ op ∈ (ServeHTTP s env r).calls,
        (∀ t now, op = Op.Create t now → t ≠ "") ∧
        (∀ id t c now, op = Op.Update id t c now → t ≠ "")) := by
  constructor
  · have h0 : TitlesNonEmpty NewMemoryStore := by
      intro k p hk
      simp [NewMemoryStore] at hk
    exact TitlesNonEmpty_serveAll reqs NewMemoryStore h0
  · intro s env r op hop
    rcases (ServeHTTP_summary s env r).2 with ⟨hcalls, _⟩ | ⟨hcalls, _⟩ | ⟨id, hcalls, _⟩ |
      ⟨t, ht, hcalls, _⟩ | ⟨id, t, c, ht, hcalls, _⟩ | ⟨id, hcalls, _⟩ <;>
      rw [hcalls] at hop <;> simp at hop
    · subst hop; exact ⟨(fun _ _ h => by cases h), (fun _ _ _ _ h => by cases h)⟩
    · subst hop; exact ⟨(fun _ _ h => by cases h), (fun _ _ _ _ h => by cases h)⟩
    · subst hop
      exact ⟨(fun _ _ h => by cases h; exact ht), (fun _ _ _ _ h => by cases h)⟩
    · subst hop
      exact ⟨(fun _ _ h => by cases h), (fun _ _ _ _ h => by cases h; exact ht)⟩
    · subst hop; exact ⟨(fun _ _ h => by cases h), (fun _ _ _ _ h => by cases h)⟩

/-- Witness for C14: after a POST with title "a" and a PUT of item 1 with title
"b", item 1 exists and its title is not empty. -/
theorem titles_never_empty_witness :
    ∃ x : Todo,
      (serveAll NewMemoryStore
        [({ now := 1, order := [], decodeCreate := fun _ => some "a",
            decodeUpdate := fun _ => none },
          { Method := "POST", Path := "/todos", Body := "" }),
         ({ now := 2, order := [], decodeCreate := fun _ => none,
            decodeUpdate := fun _ => some ("b", true) },
          { Method := "PUT", Path := "/todos/1", Body := "" })]).deref 0 = some x ∧
      x.Title ≠ "" :=
  (titles_never_empty
    [({ now := 1, order := [], decodeCreate := fun _ => some "a",
        decodeUpdate := fun _ => none },
      { Method := "POST", Path := "/todos", Body := "" }),
     ({ now := 2, order := [], decodeCreate := fun _ => none,
        decodeUpdate := fun _ => some ("b", true) },
      { Method := "PUT", Path := "/todos/1", Body := "" })]).1 1 0 (by decide)

/-! ## Content type -/

theorem Get_respondJSON (w : ResponseWriter) (status : Nat) (data : Payload) :
    (respondJSON w status data).Get "Content-Type" = some "application/json" := by
  simp [respondJSON, ResponseWriter.Get, ResponseWriter.Set, ResponseWriter.WriteHeader]

theorem Get_respondError (w : ResponseWriter) (status : Nat) (message : String) :
    (respondError w status message).Get "Content-Type" = some "application/json" :=
  Get_respondJSON w status _

theorem Get_WriteHeader_corsWriter (status : Nat) :
    (corsWriter.WriteHeader status).Get "Content-Type" = none := by
  show corsWriter.Get "Content-Type" = none
  decide

theorem Get_NotFound_corsWriter :
    (NotFound corsWriter).Get "Content-Type" = some "text/plain; charset=utf-8" := by
  decide

/-- The response writer `ServeHTTP` leaves behind, by kind of response. -/
theorem ServeHTTP_writer (s : MemoryStore) (env : Env) (r : Request) :
    (r.Method = "OPTIONS" ∧ (ServeHTTP s env r).w = corsWriter.WriteHeader 200) ∨
    (r.Method = "DELETE" ∧ TrimPrefix r.Path "/todos" ≠ "" ∧
      (ServeHTTP s env r).w = corsWriter.WriteHeader 204) ∨
    (r.Method ≠ "OPTIONS" ∧
      ((r.Method = "GET" ∧ TrimPrefix r.Path "/todos" = "") ∨
       (r.Method = "GET" ∧ TrimPrefix r.Path "/todos" ≠ "") ∨
       (r.Method = "POST" ∧ TrimPrefix r.Path "/todos" = "") ∨
       (r.Method = "PUT" ∧ TrimPrefix r.Path "/todos" ≠ "") ∨
       (r.Method = "DELETE" ∧ TrimPrefix r.Path "/todos" ≠ "")) ∧
      ∃ status data, status ≠ 204 ∧
        (ServeHTTP s env r).w = respondJSON corsWriter status data) ∨
    ((r.Method ≠ "OPTIONS" ∧
      ¬ (r.Method = "GET" ∧ TrimPrefix r.Path "/todos" = "") ∧
      ¬ (r.Method = "GET" ∧ TrimPrefix r.Path "/todos" ≠ "") ∧
      ¬ (r.Method = "POST" ∧ TrimPrefix r.Path "/todos" = "") ∧
      ¬ (r.Method = "PUT" ∧ TrimPrefix r.Path "/todos" ≠ "") ∧
      ¬ (r.Method = "DELETE" ∧ TrimPrefix r.Path "/todos" ≠ "")) ∧
      (ServeHTTP s env r).w = NotFound corsWriter) := by
  rcases ServeHTTP_route s env r with ⟨hm, h⟩ | ⟨hm, hp, h⟩ | ⟨hm, hp, h⟩ |
    ⟨hm, hp, h⟩ | ⟨hm, hp, h⟩ | ⟨hm, hp, h⟩ | ⟨hu, h⟩
  · exact Or.inl ⟨hm, by rw [h]⟩
  · refine Or.inr (Or.inr (Or.inl ⟨by rw [hm]; decide, Or.inl ⟨hm, hp⟩, ?_⟩))
    rw [h]
    exact ⟨200, _, by decide, rfl⟩
  · refine Or.inr (Or.inr (Or.inl ⟨by rw [hm]; decide, Or.inr (Or.inl ⟨hm, hp⟩), ?_⟩))
    rw [h]
    cases hpi : parseID (TrimPrefix r.Path "/todos") with
    | error e =>
      rw [handleGetByID_parse_error s _ _ e hpi]
      exact ⟨400, _, by decide, rfl⟩
    | ok id =>
      cases hl : s.todos.lookup id with
      | none =>
        rw [handleGetByID_absent s _ _ id hpi hl]
        exact ⟨404, _, by decide, rfl⟩
      | some p =>
        rw [handleGetByID_found s _ _ id p hpi hl]
        exact ⟨200, _, by decide, rfl⟩
  · refine Or.inr (Or.inr (Or.inl
      ⟨by rw [hm]; decide, Or.inr (Or.inr (Or.inl ⟨hm, hp⟩)), ?_⟩))
    rw [h]
    cases hd : env.decodeCreate r.Body with
    | none =>
      rw [handleCreate_decode_error s env _ r hd]
      exact ⟨400, _, by decide, rfl⟩
    | some title =>
      by_cases ht : title = ""
      · subst ht
        rw [handleCreate_empty_title s env _ r hd]
        exact ⟨400, _, by decide, rfl⟩
      · rw [handleCreate_ok s env _ r title hd ht]
        exact ⟨201, _, by decide, rfl⟩
  · refine Or.inr (Or.inr (Or.inl
      ⟨by rw [hm]; decide, Or.inr (Or.inr (Or.inr (Or.inl ⟨hm, hp⟩))), ?_⟩))
    rw [h]
    cases hpi : parseID (TrimPrefix r.Path "/todos") with
    | error e =>
      rw [handleUpdate_parse_error s env _ r _ e hpi]
      exact ⟨400, _, by decide, rfl⟩
    | ok id =>
      cases hd : env.decodeUpdate r.Body with
      | none =>
        rw [handleUpdate_decode_error s env _ r _ id hpi hd]
        exact ⟨400, _, by decide, rfl⟩
      | some tc =>
        obtain ⟨title, completed⟩ := tc
        by_cases ht : title = ""
        · subst ht
          rw [handleUpdate_empty_title s env _ r _ id completed hpi hd]
          exact ⟨400, _, by decide, rfl⟩
        · cases hl : s.todos.lookup id with
          | none =>
            rw [handleUpdate_absent s env _ r _ id title completed hpi hd ht hl]
            exact ⟨404, _, by decide, rfl⟩
          | some p =>
            rw [handleUpdate_found s env _ r _ id title completed p hpi hd ht hl]
            exact ⟨200, _, by decide, rfl⟩
  · rw [h]
    cases hpi : parseID (TrimPrefix r.Path "/todos") with
    | error e =>
      refine Or.inr (Or.inr (Or.inl
        ⟨by rw [hm]; decide, Or.inr (Or.inr (Or.inr (Or.inr ⟨hm, hp⟩))), ?_⟩))
      rw [handleDelete_parse_error s _ _ e hpi]
      exact ⟨400, _, by decide, rfl⟩
    | ok id =>
      cases hl : s.todos.lookup id with
      | none =>
        refine Or.inr (Or.inr (Or.inl
          ⟨by rw [hm]; decide, Or.inr (Or.inr (Or.inr (Or.inr ⟨hm, hp⟩))), ?_⟩))
        rw [handleDelete_absent s _ _ id hpi hl]
        exact ⟨404, _, by decide, rfl⟩
      | some p =>
        refine Or.inr (Or.inl ⟨hm, hp, ?_⟩)
        rw [handleDelete_found s _ _ id p hpi hl]
  · exact Or.inr (Or.inr (Or.inr ⟨hu, by rw [h]⟩))

/-- C15 (as stated, refuted): the response to an OPTIONS preflight and the 204
response to a successful DELETE carry no `Content-Type` header, and the
unrouted 404 (here a PATCH) carries `text/plain; charset=utf-8`. -/
theorem content_type_not_always_json :
    (ServeHTTP NewMemoryStore
        { now := 0, order := [], decodeCreate := fun _ => none, decodeUpdate := fun _ => none }
        { Method := "OPTIONS", Path := "/todos", Body := "" }).w.Get "Content-Type" = none ∧
    (ServeHTTP (Create NewMemoryStore "a" 1).1
        { now := 0, order := [], decodeCreate := fun _ => none, decodeUpdate := fun _ => none }
        { Method := "DELETE", Path := "/todos/1", Body := "" }).w.status = 204 ∧
    (ServeHTTP (Create NewMemoryStore "a" 1).1
        { now := 0, order := [], decodeCreate := fun _ => none, decodeUpdate := fun _ => none }
        { Method := "DELETE", Path := "/todos/1", Body := "" }).w.Get "Content-Type" = none ∧
    (ServeHTTP NewMemoryStore
        { now := 0, order := [], decodeCreate := fun _ => none, decodeUpdate := fun _ => none }
        { Method := "PATCH", Path := "/todos", Body := "" }).w.status = 404 ∧
    (ServeHTTP NewMemoryStore
        { now := 0, order := [], decodeCreate := fun _ => none, decodeUpdate := fun _ => none }
        { Method := "PATCH", Path := "/todos", Body := "" }).w.Get "Content-Type"
      = some "text/plain; charset=utf-8" := by
  refine ⟨?_, ?_, ?_, ?_, ?_⟩ <;> decide

/-- C15 (amended): for every request handled by `TodoHandler.ServeHTTP` that
is routed to one of the five handlers and is not answered 204, that is for
every response written by `respondJSON` (the 200 and 201 successes and the 400
and 404 JSON errors), the response headers include `Content-Type:
application/json`; the OPTIONS preflight and the 204 delete response set no
`Content-Type`, and the unrouted 404 has `Content-Type: text/plain;
charset=utf-8`. -/
theorem content_type_by_response_kind (s : MemoryStore) (env : Env) (r : Request) :
    (r.Method ≠ "OPTIONS" →
      ((r.Method = "GET" ∧ TrimPrefix r.Path "/todos" = "") ∨
       (r.Method = "GET" ∧ TrimPrefix r.Path "/todos" ≠ "") ∨
       (r.Method = "POST" ∧ TrimPrefix r.Path "/todos" = "") ∨
       (r.Method = "PUT" ∧ TrimPrefix r.Path "/todos" ≠ "") ∨
       (r.Method = "DELETE" ∧ TrimPrefix r.Path "/todos" ≠ "")) →
      (ServeHTTP s env r).w.status ≠ 204 →
      (ServeHTTP s env r).w.Get "Content-Type" = some "application/json") ∧
    (r.Method = "OPTIONS" → (ServeHTTP s env r).w.Get "Content-Type" = none) ∧
    ((ServeHTTP s env r).w.status = 204 →
      (ServeHTTP s env r).w.Get "Content-Type" = none) ∧
    (r.Method ≠ "OPTIONS" →
      ¬ (r.Method = "GET" ∧ TrimPrefix r.Path "/todos" = "") →
      ¬ (r.Method = "GET" ∧ TrimPrefix r.Path "/todos" ≠ "") →
      ¬ (r.Method = "POST" ∧ TrimPrefix r.Path "/todos" = "") →
      ¬ (r.Method = "PUT" ∧ TrimPrefix r.Path "/todos" ≠ "") →
      ¬ (r.Method = "DELETE" ∧ TrimPrefix r.Path "/todos" ≠ "") →
      (ServeHTTP s env r).w.Get "Content-Type" = some "text/plain; charset=utf-8") := by
  rcases ServeHTTP_writer s env r with ⟨hm, hw⟩ | ⟨hm, hp, hw⟩ |
    ⟨hopt, hrouted, status, data, hst, hw⟩ | ⟨⟨hopt, h1, h2, h3, h4, h5⟩, hw⟩
  · refine ⟨fun h => absurd hm h, fun _ => ?_, fun h => ?_, fun h => absurd hm h⟩
    · rw [hw]; exact Get_WriteHeader_corsWriter 200
    · rw [hw] at h; exact absurd h (by decide)
  · refine ⟨fun _ _ h => ?_, fun h => ?_, fun _ => ?_, fun _ _ _ _ _ h => ?_⟩
    · rw [hw] at h; exact absurd rfl h
    · rw [hm] at h; exact absurd h (by decide)
    · rw [hw]; exact Get_WriteHeader_corsWriter 204
    · exact absurd ⟨hm, hp⟩ h
  · refine ⟨fun _ _ _ => ?_, fun h => absurd h hopt, fun h => ?_, fun _ g1 g2 g3 g4 g5 => ?_⟩
    · rw [hw]; exact Get_respondJSON _ _ _
    · rw [hw] at h; exact absurd h hst
    · rcases hrouted with g | g | g | g | g
      · exact absurd g g1
      · exact absurd g g2
      · exact absurd g g3
      · exact absurd g g4
      · exact absurd g g5
  · refine ⟨fun _ hrouted _ => ?_, fun h => absurd h hopt, fun h => ?_, fun _ _ _ _ _ _ => ?_⟩
    · rcases hrouted with g | g | g | g | g
      · exact absurd g h1
      · exact absurd g h2
      · exact absurd g h3
      · exact absurd g h4
      · exact absurd g h5
    · rw [hw] at h; exact absurd h (by decide)
    · rw [hw]; exact Get_NotFound_corsWriter

/-- Witness for C15: `GET /todos/abc`, answered 400, carries `Content-Type:
application/json`. -/
theorem content_type_by_response_kind_witness :
    (ServeHTTP NewMemoryStore
        { now := 0, order := [], decodeCreate := fun _ => none, decodeUpdate := fun _ => none }
        { Method := "GET", Path := "/todos/abc", Body := "" }).w.Get "Content-Type"
      = some "application/json" :=
  (content_type_by_response_kind NewMemoryStore
    { now := 0, order := [], decodeCreate := fun _ => none, decodeUpdate := fun _ => none }
    { Method := "GET", Path := "/todos/abc", Body := "" }).1
    (by decide) (Or.inr (Or.inl ⟨rfl, by decide⟩)) (by decide)

/-! ## Returned items alias the stored items -/

theorem Update_deref_of_lookup {s : MemoryStore} {id : Int} {p : Ptr} {x : Todo}
    (t : String) (c : Bool) (now : Time)
    (hp : s.todos.lookup id = some p) (hx : s.deref p = some x) :
    (Update s id t c now).1.deref p =
      some { ID := x.ID, Title := t, Completed := c, CreatedAt := x.CreatedAt,
             UpdatedAt := now } := by
  rw [Update_of_lookup t c now hp]
  simp only [MemoryStore.deref] at hx ⊢
  rw [List.getElem?_modify_eq, hx]
  rfl

/-- C16 (as stated, refuted): the item `GetByID(1)` returns is the stored
object itself: read through the returned pointer it has title "a" before and
title "b", completed, `UpdatedAt = 5` after `Update(1, "b", true)`. -/
theorem returned_item_is_not_a_copy :
    (GetByID (Create NewMemoryStore "a" 1).1 1).2 = .ok 0 ∧
    (Create NewMemoryStore "a" 1).1.deref 0
      = some { ID := 1, Title := "a", Completed := false, CreatedAt := 1, UpdatedAt := 1 } ∧
    (Update (Create NewMemoryStore "a" 1).1 1 "b" true 5).1.deref 0
      = some { ID := 1, Title := "b", Completed := true, CreatedAt := 1, UpdatedAt := 5 } :=
  ⟨rfl, by decide, by decide⟩

/-- C16 (amended): values handed out by the store are pointers to the stored
items, not copies: for every store state in which `id` is present, the item
`GetByID(id)` returns, the element for `id` of the sequence `GetAll` returns
and the item `Create` returned (for its own id) are the stored object, and
after `Update(id, t', c')` at clock value `now'` the `Title`, `Completed` and
`UpdatedAt` observed through them are `t'`, `c'` and `now'`, while `ID` and
`CreatedAt` are as before. -/
theorem returned_item_aliases_store (s : MemoryStore) (id : Int) (p : Ptr) (x : Todo)
    (t' : String) (c' : Bool) (now' : Time)
    (hp : s.todos.lookup id = some p) (hx : s.deref p = some x) :
    (GetByID s id).2 = .ok p ∧
    (∀ order : List Int, id ∈ order →
      ∃ l, (GetAll s order).2 = some l ∧ p ∈ l) ∧
    (Update s id t' c' now').1.deref p =
      some { ID := x.ID, Title := t', Completed := c', CreatedAt := x.CreatedAt,
             UpdatedAt := now' } ∧
    (∀ (t : String) (now : Time),
      (Create s t now).1.deref (Create s t now).2 =
        some { ID := s.nextID, Title := t, Completed := false, CreatedAt := now,
               UpdatedAt := now } ∧
      (Update (Create s t now).1 s.nextID t' c' now').1.deref (Create s t now).2 =
        some { ID := s.nextID, Title := t', Completed := c', CreatedAt := now,
               UpdatedAt := now' }) := by
  refine ⟨by rw [GetByID_of_lookup hp], ?_, Update_deref_of_lookup t' c' now' hp hx, ?_⟩
  · intro order hmem
    rw [GetAll_eq]
    exact ⟨_, rfl, List.mem_filterMap.mpr ⟨id, hmem, hp⟩⟩
  · intro t now
    exact ⟨Create_deref s t now,
      Update_deref_of_lookup t' c' now' (Create_todos_lookup_self s t now)
        (Create_deref s t now)⟩

/-- Witness for C16: the pointer to the only item of a one-item store shows the
updated fields after an update. -/
theorem returned_item_aliases_store_witness :
    (GetByID (Create NewMemoryStore "a" 1).1 1).2 = .ok 0 ∧
    (Update (Create NewMemoryStore "a" 1).1 1 "b" true 5).1.deref 0
      = some { ID := 1, Title := "b", Completed := true, CreatedAt := 1, UpdatedAt := 5 } :=
  have h := returned_item_aliases_store (Create NewMemoryStore "a" 1).1 1 0
    { ID := 1, Title := "a", Completed := false, CreatedAt := 1, UpdatedAt := 1 }
    "b" true 5 (by decide) (by decide)
  ⟨h.1, h.2.2.1⟩

/-! ## Frame properties -/

theorem numDeletes_cons_other (s : MemoryStore) (op : Op) (ops : List Op)
    (h : ∀ id, op ≠ Op.Delete id) :
    numDeletes s (op :: ops) = numDeletes (step s op) ops := by
  cases op with
  | Delete id => exact absurd rfl (h id)
  | _ => rfl

theorem not_mem_nextID_of_IDInvariant {s : MemoryStore} (h : IDInvariant s) :
    s.nextID ∉ s.todos := by
  intro hmem
  rw [← AList.lookup_isSome] at hmem
  cases hl : s.todos.lookup s.nextID with
  | none => rw [hl] at hmem; cases hmem
  | some p => exact absurd (h.2 _ p hl).2.1 (lt_irrefl _)

theorem Create_keys_length {s : MemoryStore} (t : String) (now : Time)
    (h : s.nextID ∉ s.todos) :
    (Create s t now).1.todos.keys.length = s.todos.keys.length + 1 := by
  show (s.todos.insert s.nextID s.heap.length).keys.length = _
  rw [AList.keys_insert, List.erase_of_not_mem (by rwa [← AList.mem_keys])]
  rfl

theorem Delete_keys_length {s : MemoryStore} {id : Int} {p : Ptr}
    (h : s.todos.lookup id = some p) :
    (Delete s id).1.todos.keys.length + 1 = s.todos.keys.length := by
  have hmem : id ∈ s.todos.keys := by
    rw [← AList.mem_keys, ← AList.lookup_isSome, h]; rfl
  rw [Delete_of_lookup h]
  show (s.todos.erase id).keys.length + 1 = _
  rw [AList.keys_erase, List.length_erase_of_mem hmem]
  have : 0 < s.todos.keys.length := List.length_pos_of_mem hmem
  omega

/-- While the counter stays below the largest `int`, the items of the store
are the creates minus the successful deletes. -/
theorem keys_length_run (ops : List Op) :
    ∀ s : MemoryStore, IDInvariant s → s.nextID + (numCreates ops : Int) ≤ maxInt →
      (run s ops).todos.keys.length + numDeletes s ops
        = s.todos.keys.length + numCreates ops := by
  induction ops with
  | nil => intro s _ _; rfl
  | cons op ops ih =>
    intro s h hb
    rw [run_cons]
    cases op with
    | GetAll order =>
      rw [numCreates_cons_other _ _ (by intro t n; simp),
        numDeletes_cons_other _ _ _ (by intro i; simp)] at *
      exact ih _ h hb
    | GetByID gid =>
      rw [numCreates_cons_other _ _ (by intro t n; simp),
        numDeletes_cons_other _ _ _ (by intro i; simp)] at *
      have e : step s (Op.GetByID gid) = s := GetByID_fst s gid
      rw [e]
      exact ih _ h hb
    | Create title now =>
      rw [numCreates_cons_create] at hb ⊢
      rw [numDeletes_cons_other _ _ _ (by intro i; simp)]
      push_cast at hb
      have hlt : s.nextID < maxInt := by omega
      have hn := Create_nextID_of_lt s title now h.1 hlt
      have := ih (Create s title now).1 (IDInvariant_create s title now h hlt)
        (by rw [hn]; omega)
      have hk := Create_keys_length title now (not_mem_nextID_of_IDInvariant h)
      show (run (Create s title now).1 ops).todos.keys.length
        + numDeletes (Create s title now).1 ops = _
      omega
    | Update id title completed now =>
      rw [numCreates_cons_other _ _ (by intro t n; simp),
        numDeletes_cons_other _ _ _ (by intro i; simp)] at *
      have := ih (Update s id title completed now).1
        (IDInvariant_update s id title completed now h) (by rw [Update_nextID]; exact hb)
      have hk : (Update s id title completed now).1.todos = s.todos := by
        unfold Update; split <;> rfl
      rw [hk] at this
      exact this
    | Delete id =>
      rw [numCreates_cons_other _ _ (by intro t n; simp)] at hb ⊢
      have := ih (Delete s id).1 (IDInvariant_delete s id h)
        (by rw [Delete_nextID]; exact hb)
      show (run (Delete s id).1 ops).todos.keys.length
        + ((if (Delete s id).2 = none then 1 else 0) + numDeletes (Delete s id).1 ops) = _
      cases hl : s.todos.lookup id with
      | none =>
        rw [Delete_of_lookup_none hl] at this ⊢
        simp only [reduceCtorEq, if_false, zero_add]
        exact this
      | some p =>
        have hk := Delete_keys_length hl
        rw [Delete_of_lookup hl] at this hk ⊢
        simp only [if_true] at this hk ⊢
        omega

/-- C19 (as stated, refuted): in the store reached from `NewMemoryStore()` by
2^63 - 2 calls of `Create` the counter is 2^63 - 1, the largest `int`, and one
more `Create` sets it to -2^63, not to 2^63. -/
theorem create_does_not_always_increment :
    (run NewMemoryStore (List.replicate (2 ^ 63 - 2) (Op.Create "a" 0))).nextID
      = 2 ^ 63 - 1 ∧
    (Create (run NewMemoryStore (List.replicate (2 ^ 63 - 2) (Op.Create "a" 0)))
      "b" 0).1.nextID = -(2 ^ 63 : Int) ∧
    (Create (run NewMemoryStore (List.replicate (2 ^ 63 - 2) (Op.Create "a" 0)))
      "b" 0).1.nextID
      ≠ (run NewMemoryStore (List.replicate (2 ^ 63 - 2) (Op.Create "a" 0))).nextID + 1 := by
  have h1 : (run NewMemoryStore (List.replicate (2 ^ 63 - 2) (Op.Create "a" 0))).nextID
      = 2 ^ 63 - 1 := by
    rw [run_nextID_wrap _ _ wrapInt_NewMemoryStore, numCreates_replicate]
    show wrapInt ((1 : Int) + ((2 ^ 63 - 2 : Nat) : Int)) = _
    unfold wrapInt intSize
    norm_num
  have h2 : (Create (run NewMemoryStore (List.replicate (2 ^ 63 - 2) (Op.Create "a" 0)))
      "b" 0).1.nextID = -(2 ^ 63 : Int) := by
    show wrapInt (_ + 1) = _
    rw [h1]
    unfold wrapInt intSize
    norm_num
  refine ⟨h1, h2, ?_⟩
  rw [h2, h1]
  norm_num

/-- C19 (amended): for every store state reached from `NewMemoryStore()` by a
sequence of store operations with fewer than 2^63 - 1 calls of `Create`: a
successful `Update(id, t, c)` leaves the set of keys, `nextID` and every item
stored under a key other than `id` unchanged; a successful `Delete(id)`
removes exactly the key `id` and leaves every other key, every item and
`nextID` unchanged; `Create` adds exactly one key, the old `nextID`, which was
not a key, leaves every other key and every stored item unchanged and, unless
`nextID` is the largest `int`, increases `nextID` by exactly 1. Hence the
number of items of such a store is the number of `Create` calls minus the
number of successful `Delete` calls. -/
theorem operations_frame (s : MemoryStore) (ops : List Op)
    (hs : s = run NewMemoryStore ops) (hbound : (numCreates ops : Int) < maxInt) :
    (∀ (id : Int) (t : String) (c : Bool) (now : Time) (p : Ptr),
      s.todos.lookup id = some p →
        (Update s id t c now).1.todos = s.todos ∧
        (Update s id t c now).1.nextID = s.nextID ∧
        ∀ (k : Int) (q : Ptr), k ≠ id → s.todos.lookup k = some q →
          (Update s id t c now).1.deref q = s.deref q) ∧
    (∀ (id : Int) (p : Ptr), s.todos.lookup id = some p →
        (Delete s id).1.todos.lookup id = none ∧
        (∀ k : Int, k ≠ id → (Delete s id).1.todos.lookup k = s.todos.lookup k) ∧
        (Delete s id).1.heap = s.heap ∧
        (Delete s id).1.nextID = s.nextID ∧
        (Delete s id).1.todos.keys.length + 1 = s.todos.keys.length) ∧
    (∀ (t : String) (now : Time),
        s.todos.lookup s.nextID = none ∧
        (Create s t now).1.todos.lookup s.nextID = some (Create s t now).2 ∧
        (∀ k : Int, k ≠ s.nextID →
          (Create s t now).1.todos.lookup k = s.todos.lookup k) ∧
        (∀ (k : Int) (q : Ptr), s.todos.lookup k = some q →
          (Create s t now).1.deref q = s.deref q) ∧
        (Create s t now).1.todos.keys.length = s.todos.keys.length + 1 ∧
        (s.nextID < maxInt → (Create s t now).1.nextID = s.nextID + 1)) ∧
    s.todos.keys.length + numDeletes NewMemoryStore ops = numCreates ops := by
  have hrun := IDInvariant_run ops NewMemoryStore IDInvariant_NewMemoryStore
    (by show (1 : Int) + _ ≤ _; omega)
  have hinv : IDInvariant s := by rw [hs]; exact hrun.1
  refine ⟨?_, ?_, ?_, ?_⟩
  · intro id t c now p hp
    rw [Update_of_lookup t c now hp]
    refine ⟨rfl, rfl, ?_⟩
    intro k q hk hq
    obtain ⟨_, _, x, hx, hxid⟩ := hinv.2 k q hq
    obtain ⟨_, _, y, hy, hyid⟩ := hinv.2 id p hp
    have hne : p ≠ q := by
      intro hpq
      subst hpq
      rw [hx] at hy
      cases hy
      exact hk (hxid.symm.trans hyid)
    show (s.heap.modify _ p)[q]? = s.heap[q]?
    rw [List.getElem?_modify_ne _ _ hne]
  · intro id p hp
    refine ⟨?_, ?_, ?_, Delete_nextID s id, Delete_keys_length hp⟩
    · rw [Delete_of_lookup hp]; exact AList.lookup_erase id s.todos
    · intro k hk
      rw [Delete_of_lookup hp]
      exact AList.lookup_erase_ne hk
    · rw [Delete_of_lookup hp]
  · intro t now
    have hnot := not_mem_nextID_of_IDInvariant hinv
    refine ⟨AList.lookup_eq_none.mpr hnot, Create_todos_lookup_self s t now, ?_, ?_,
      Create_keys_length t now hnot, fun hlt => Create_nextID_of_lt s t now hinv.1 hlt⟩
    · intro k hk
      show (s.todos.insert s.nextID s.heap.length).lookup k = _
      exact AList.lookup_insert_ne hk
    · intro k q hq
      obtain ⟨_, _, x, hx, _⟩ := hinv.2 k q hq
      rw [hx]
      exact deref_append_of_deref _ hx
  · have h := keys_length_run ops NewMemoryStore IDInvariant_NewMemoryStore
      (by show (1 : Int) + _ ≤ _; omega)
    rw [hs, h]
    show 0 + numCreates ops = numCreates ops
    omega

/-- Witness for C19: after three creates and the deletion of item 2 the store
holds 3 - 1 = 2 items, and updating item 1 leaves item 3 as it is. -/
theorem operations_frame_witness :
    (run NewMemoryStore
        [Op.Create "a" 1, Op.Create "b" 2, Op.Create "c" 3, Op.Delete 2]).todos.keys.length
      + numDeletes NewMemoryStore
          [Op.Create "a" 1, Op.Create "b" 2, Op.Create "c" 3, Op.Delete 2]
      = numCreates [Op.Create "a" 1, Op.Create "b" 2, Op.Create "c" 3, Op.Delete 2] ∧
    (Update (run NewMemoryStore
        [Op.Create "a" 1, Op.Create "b" 2, Op.Create "c" 3, Op.Delete 2]) 1 "z" true 9).1.deref 2
      = (run NewMemoryStore
        [Op.Create "a" 1, Op.Create "b" 2, Op.Create "c" 3, Op.Delete 2]).deref 2 :=
  have h := operations_frame
    (run NewMemoryStore [Op.Create "a" 1, Op.Create "b" 2, Op.Create "c" 3, Op.Delete 2])
    [Op.Create "a" 1, Op.Create "b" 2, Op.Create "c" 3, Op.Delete 2] rfl (by decide)
  ⟨h.2.2.2, (h.1 1 "z" true 9 0 (by decide)).2.2 3 2 (by decide) (by decide)⟩

end TodoApp
